import Mathlib

/-!
# Draft worker: request handler of `src/workers/src/index.js`

A shallow embedding of the worker's `fetch` handler and of the JavaScript
library operations it relies on, followed by the properties proved about it.

Strings are Lean strings (sequences of Unicode scalar values); the regular
expression of the sanitising step works on the underlying character list.
-/

namespace DraftWorker

/-! ## Sanitising: `text.replace(/```[\s\S]*?```/g, "").trim()` -/

/-- The three backticks that open and close a fenced block. -/
def fence : List Char := ['`', '`', '`']

/-- The lazy `[\s\S]*?` followed by the closing fence: tries the closing fence at
the current position first and otherwise consumes one character (any character,
newlines included). Returns the input left after the closing fence. -/
def afterClose : List Char → Option (List Char)
  | [] => none
  | c :: cs => if fence.isPrefixOf (c :: cs) then some (cs.drop 2) else afterClose cs

/-- One attempt to match the whole pattern at the start of the input: the
opening fence, then `afterClose`. Returns the input left after the match. -/
def matchFence (l : List Char) : Option (List Char) :=
  if fence.isPrefixOf l then afterClose (l.drop 3) else none

/-- The global replace with the empty string: scanning left to right, a match at
the current position is dropped and scanning resumes right after it; without a
match the current character is kept and scanning moves one character on. -/
def stripFences : List Char → List Char
  | [] => []
  | c :: cs =>
    match _h : matchFence (c :: cs) with
    | some rest => stripFences rest
    | none => c :: stripFences cs
termination_by l => l.length
decreasing_by
  · have key : ∀ (l r : List Char), afterClose l = some r → r.length ≤ l.length := by
      intro l
      induction l with
      | nil => intro r h; simp [afterClose] at h
      | cons d ds ih =>
        intro r h
        unfold afterClose at h
        split at h
        · cases h; simp; omega
        · have := ih r h
          simp; omega
    unfold matchFence at _h
    split at _h
    · have h1 := key _ _ _h
      simp at h1 ⊢; omega
    · cases _h
  · simp

/-- The code points `String.prototype.trim` removes: ECMAScript WhiteSpace
(TAB, VT, FF, ZWNBSP and the Unicode space separators) and LineTerminator. -/
def isJsSpace (c : Char) : Bool :=
  let n := c.toNat
  n == 0x09 || n == 0x0A || n == 0x0B || n == 0x0C || n == 0x0D || n == 0x20 ||
  n == 0xA0 || n == 0x1680 || (0x2000 ≤ n && n ≤ 0x200A) || n == 0x2028 ||
  n == 0x2029 || n == 0x202F || n == 0x205F || n == 0x3000 || n == 0xFEFF

/-- The method `trim` on a character list: leading and trailing white space removed. -/
def trimChars (l : List Char) : List Char :=
  (l.dropWhile isJsSpace).rdropWhile isJsSpace

/-- The sanitising step of line 64 on a character list. -/
def sanitizeChars (l : List Char) : List Char :=
  trimChars (stripFences l)

/-- The sanitising step of line 64: `text.replace(/```[\s\S]*?```/g, "").trim()`. -/
def sanitize (text : String) : String :=
  ⟨sanitizeChars text.data⟩

/-- The fence-stripping step alone, on strings. -/
def stripFencesStr (text : String) : String :=
  ⟨stripFences text.data⟩

/-! ## JavaScript values -/

/-- A value produced by `JSON.parse` (the request body, the upstream response) or
handed to `JSON.stringify`. The field list of `obj` holds the own properties of
the object. -/
inductive JsonVal where
  | null
  | bool (b : Bool)
  | num (x : ℚ)
  | str (s : String)
  | arr (items : List JsonVal)
  | obj (fields : List (String × JsonVal))

/-- The read `v.name` on a value that is neither `null` nor `undefined`; `none` is
`undefined`. The names the handler reads (`prompt`, `candidates`, `content`,
`parts`, `text`) are no members of the Object, String, Number, Boolean or Array
prototypes, so only an own property of an object can answer with a value. -/
def JsonVal.field (name : String) : JsonVal → Option JsonVal
  | .obj fields => fields.lookup name
  | _ => none

/-- The read `v[0]` on a value that is neither `null` nor `undefined`: the first
element of an array, the property `"0"` of an object, the first character of a
non-empty string (a one-character string; the handler goes on to read a field of
it, which no string has). -/
def JsonVal.index0 : JsonVal → Option JsonVal
  | .obj fields => fields.lookup "0"
  | .arr items => items.head?
  | .str s =>
    match s.data with
    | [] => none
    | c :: _ => some (.str (String.singleton c))
  | _ => none

/-- The optional read `v?.name`. -/
def optField (v : Option JsonVal) (name : String) : Option JsonVal :=
  match v with
  | none => none
  | some .null => none
  | some w => w.field name

/-- The optional read `v?.[0]`. -/
def optIndex0 (v : Option JsonVal) : Option JsonVal :=
  match v with
  | none => none
  | some .null => none
  | some w => w.index0

/-- JavaScript truthiness of a value (`none` is `undefined`). -/
def truthy : Option JsonVal → Bool
  | none => false
  | some .null => false
  | some (.bool b) => b
  | some (.num x) => decide (x ≠ 0)
  | some (.str s) => decide (s ≠ "")
  | some (.arr _) => true
  | some (.obj _) => true

/-- The operator `typeof`. -/
def typeOf : Option JsonVal → String
  | none => "undefined"
  | some .null => "object"
  | some (.bool _) => "boolean"
  | some (.num _) => "number"
  | some (.str _) => "string"
  | some (.arr _) => "object"
  | some (.obj _) => "object"

/-- The characters of a value known to be a string. -/
def stringOf : Option JsonVal → String
  | some (.str s) => s
  | _ => ""

/-- JavaScript truthiness of an optional string: neither `undefined` nor empty. -/
def strTruthy : Option String → Bool
  | none => false
  | some s => decide (s ≠ "")

/-- The operator `a || b` on an optional string: `b` when `a` is `null` or empty. -/
def orElse (a : Option String) (b : String) : String :=
  match a with
  | none => b
  | some s => if s = "" then b else s

/-! ## Numbers -/

/-- A JavaScript number: `NaN`, the two infinities, or a finite value. Finite
values are kept exact: the rounding of doubles is left out. -/
inductive JsNum where
  | nan
  | negInf
  | fin (x : ℚ)
  | posInf

/-- The comparison `a >= b`. -/
def JsNum.ge : JsNum → JsNum → Bool
  | .nan, _ => false
  | _, .nan => false
  | .posInf, _ => true
  | _, .negInf => true
  | .negInf, _ => false
  | _, .posInf => false
  | .fin a, .fin b => decide (b ≤ a)

/-- The comparison `a < b`. -/
def JsNum.lt : JsNum → JsNum → Bool
  | .nan, _ => false
  | _, .nan => false
  | .posInf, _ => false
  | _, .negInf => false
  | .negInf, _ => true
  | _, .posInf => true
  | .fin a, .fin b => decide (a < b)

/-- The sum `a + 1`. -/
def JsNum.add1 : JsNum → JsNum
  | .nan => .nan
  | .negInf => .negInf
  | .posInf => .posInf
  | .fin a => .fin (a + 1)

/-- The conversions `Number(s)` of a string and `String(n)` of a number, which
belong to the language and are taken as given. -/
structure NumberConv where
  toNumber : String → JsNum
  toStr : JsNum → String

/-! ## Time -/

/-- The UTC fields of a `Date`, as `new Date()` gives it. Month and day count
from 0 (month 0 is January, day 0 is the first day of the month). -/
structure UtcTime where
  year : Int
  month : Fin 12
  day : Fin 31
  hour : Fin 24
  minute : Fin 60
  second : Fin 60
  ms : Fin 1000

/-- The decimal digit for `n % 10`. -/
def digitChar (n : Nat) : Char := Char.ofNat (48 + n % 10)

/-- Decimal rendering padded with zeros to two places (for `n < 100`). -/
def pad2 (n : Nat) : List Char := [digitChar (n / 10), digitChar n]

/-- Decimal rendering padded with zeros to three places (for `n < 1000`). -/
def pad3 (n : Nat) : List Char := [digitChar (n / 100), digitChar (n / 10), digitChar n]

/-- Decimal rendering padded with zeros to four places (for `n < 10000`). -/
def pad4 (n : Nat) : List Char :=
  [digitChar (n / 1000), digitChar (n / 100), digitChar (n / 10), digitChar n]

/-- Decimal rendering padded with zeros to six places (for `n < 1000000`). -/
def pad6 (n : Nat) : List Char :=
  [digitChar (n / 100000), digitChar (n / 10000), digitChar (n / 1000),
   digitChar (n / 100), digitChar (n / 10), digitChar n]

/-- The year of `toISOString`: four digits for the years 0 to 9999, otherwise a
sign and six digits (a `Date` reaches no year beyond six digits). -/
def isoYear (y : Int) : List Char :=
  if 0 ≤ y ∧ y ≤ 9999 then pad4 y.toNat
  else (if y < 0 then '-' else '+') :: pad6 y.natAbs

/-- The method `toISOString`: `YYYY-MM-DDTHH:mm:ss.sssZ`. -/
def toISOString (t : UtcTime) : String :=
  ⟨isoYear t.year ++ '-' :: pad2 (t.month.val + 1) ++ '-' :: pad2 (t.day.val + 1) ++
    'T' :: pad2 t.hour.val ++ ':' :: pad2 t.minute.val ++ ':' :: pad2 t.second.val ++
    '.' :: pad3 t.ms.val ++ ['Z']⟩

/-- The call `s.slice(0, n)`. -/
def slice0 (n : Nat) (s : String) : String := ⟨s.data.take n⟩

/-- The minute-bucket key of line 27. -/
def minuteKey (ip : String) (t : UtcTime) : String :=
  "m:" ++ ip ++ ":" ++ slice0 16 (toISOString t)

/-- The day-bucket key of line 28. -/
def dayKey (ip : String) (t : UtcTime) : String :=
  "d:" ++ ip ++ ":" ++ slice0 10 (toISOString t)

/-- Two instants in the same UTC day. -/
def SameDay (a b : UtcTime) : Prop :=
  a.year = b.year ∧ a.month = b.month ∧ a.day = b.day

/-- Two instants in the same UTC minute. -/
def SameMinute (a b : UtcTime) : Prop :=
  SameDay a b ∧ a.hour = b.hour ∧ a.minute = b.minute

/-! ## Requests, responses and the world around the handler -/

/-- What the handler reads of the inbound request. `body` is the outcome of
`request.json()`: `none` when the body does not parse as JSON. -/
structure Request where
  method : String
  origin : Option String
  connectingIp : Option String
  body : Option JsonVal

/-- The body of a response: `null`, a plain string, or `JSON.stringify` of a value. -/
inductive Body where
  | empty
  | text (s : String)
  | json (v : JsonVal)

/-- A response: status, the headers handed to the constructor, and the body. -/
structure Response where
  status : Nat
  headers : List (String × String)
  body : Body

/-- The outbound call of line 56; `body` is the value handed to `JSON.stringify`. -/
structure UpstreamRequest where
  url : String
  method : String
  headers : List (String × String)
  body : JsonVal

/-- How the outbound call ends: `fetch` rejects, `resp.json()` rejects, or
`resp.json()` yields a value. -/
inductive UpstreamResult where
  | networkError
  | notJson
  | json (data : JsonVal)

/-- The contents of the counter store `env.RATE_LIMIT`: what `get` resolves to. -/
abbrev Store := String → Option String

/-- The environment bindings the handler reads: text variables, absent when not
configured, and the counter store. -/
structure Env where
  MINUTE_LIMIT : Option String
  DAILY_LIMIT : Option String
  MODEL : Option String
  GEMINI_API_KEY : Option String
  SYSTEM_PROMPT : Option String
  RATE_LIMIT : Store

/-- What surrounds one run of the handler: the two readings of the clock (lines
27 and 28) and the answer of the upstream service to a call. -/
structure Runtime where
  nowMinute : UtcTime
  nowDay : UtcTime
  upstream : UpstreamRequest → UpstreamResult

/-- The interactions of the handler with the counter store and the upstream
service, in the order they are started. -/
inductive Effect where
  | kvGet (key : String)
  | kvPut (key value : String) (expirationTtl : Nat)
  | upstreamCall (call : UpstreamRequest)

/-- A run of the handler: the response and the interactions it started. -/
structure Outcome where
  response : Response
  effects : List Effect

/-- The CORS headers of lines 4 to 11. -/
def corsHeaders (requestOrigin : Option String) : List (String × String) :=
  [("Access-Control-Allow-Origin", orElse requestOrigin "*"),
   ("Access-Control-Allow-Methods", "POST, OPTIONS"),
   ("Access-Control-Allow-Headers", "Content-Type"),
   ("Access-Control-Max-Age", "86400"),
   ("Vary", "Origin")]

/-- The value `{ error: msg }`. -/
def errorBody (msg : String) : JsonVal := .obj [("error", .str msg)]

/-- A JSON response carrying the CORS headers and `Content-Type`. -/
def jsonResponse (status : Nat) (cors : List (String × String)) (v : JsonVal) : Response :=
  ⟨status, cors ++ [("Content-Type", "application/json")], .json v⟩

/-- The response of the `catch` branch (line 67). -/
def badRequest : Response :=
  ⟨400, [("Content-Type", "application/json")], .json (errorBody "Bad request")⟩

/-- The fallback text of line 62. -/
def fallbackText : String := "Sorry, could not generate a draft right now."

/-- The default system instruction of line 47. -/
def defaultSystemText : String :=
  "Return only the email text. Draft the message TO Caleb Carhart (recipient), not from him. Optional 'Subject:' then body. Keep under 120 words, friendly, one ask, simple sign-off. No meta/markdown."

/-- The limit `Number(v ?? dflt)` of lines 29 and 30. -/
def limitOf (conv : NumberConv) (v : Option String) (dflt : ℚ) : JsNum :=
  match v with
  | none => .fin dflt
  | some s => conv.toNumber s

/-- The count `Number(stored || 0)` of lines 32 and 33. -/
def countOf (conv : NumberConv) (stored : Option String) : JsNum :=
  match stored with
  | none => .fin 0
  | some s => if s = "" then .fin 0 else conv.toNumber s

/-- The payload of lines 48 to 54. -/
def upstreamBody (systemText prompt : String) : JsonVal :=
  .obj [("systemInstruction", .obj [("role", .str "system"), ("parts", .arr [.obj [("text", .str systemText)]])]),
        ("contents", .arr [.obj [("role", .str "user"), ("parts", .arr [.obj [("text", .str prompt)]])]]),
        ("generationConfig", .obj [("responseMimeType", .str "text/plain")])]

/-- The address of line 56. -/
def upstreamUrl (model apiKey : String) : String :=
  "https://generativelanguage.googleapis.com/v1beta/models/" ++ model ++
    ":generateContent?key=" ++ apiKey

/-- The outbound call of lines 56 to 60. -/
def upstreamCallOf (model apiKey systemText prompt : String) : UpstreamRequest :=
  ⟨upstreamUrl model apiKey, "POST", [("Content-Type", "application/json")],
   upstreamBody systemText prompt⟩

/-- The read `data?.candidates?.[0]?.content?.parts?.[0]?.text` of line 62. -/
def extractText (data : JsonVal) : Option JsonVal :=
  optField (optIndex0 (optField (optField (optIndex0 (optField (some data) "candidates"))
    "content") "parts")) "text"

/-- The operator `v ?? dflt`. -/
def orNullish (v : Option JsonVal) (dflt : JsonVal) : JsonVal :=
  match v with
  | none => dflt
  | some .null => dflt
  | some w => w

/-- The handler `fetch(request, env, ctx)`. A `throw` inside the `try` block ends
in the `catch` branch; the interactions started before it stay started. The
reads of the counter store resolve, and a write handed to `ctx.waitUntil` is
recorded when it is started. -/
def fetch (conv : NumberConv) (request : Request) (env : Env) (rt : Runtime) : Outcome :=
  let requestOrigin := request.origin
  let cors := corsHeaders requestOrigin
  if request.method = "OPTIONS" then
    ⟨⟨204, cors, .empty⟩, []⟩
  else if request.method ≠ "POST" then
    ⟨⟨405, cors, .text "Method not allowed"⟩, []⟩
  else
    match request.body with
    | none => ⟨badRequest, []⟩
    | some .null => ⟨badRequest, []⟩
    | some parsed =>
      let prompt := parsed.field "prompt"
      if !truthy prompt || typeOf prompt != "string" then
        ⟨jsonResponse 400 cors (errorBody "Missing prompt"), []⟩
      else
        let ip := orElse request.connectingIp "anon"
        let mKey := minuteKey ip rt.nowMinute
        let dKey := dayKey ip rt.nowDay
        let minuteLimit := limitOf conv env.MINUTE_LIMIT 3
        let dailyLimit := limitOf conv env.DAILY_LIMIT 20
        let minuteCount := countOf conv (env.RATE_LIMIT mKey)
        let dayCount := countOf conv (env.RATE_LIMIT dKey)
        let reads := [Effect.kvGet mKey, Effect.kvGet dKey]
        if minuteCount.ge minuteLimit || dayCount.ge dailyLimit then
          ⟨jsonResponse 429 cors (errorBody "Rate limit exceeded"), reads⟩
        else
          let writes := [Effect.kvPut mKey (conv.toStr minuteCount.add1) 90,
                         Effect.kvPut dKey (conv.toStr dayCount.add1) (60 * 60 * 24 + 60)]
          let model := orElse env.MODEL "gemini-2.0-flash"
          let apiKey := env.GEMINI_API_KEY
          if !strTruthy apiKey then
            ⟨jsonResponse 500 cors (errorBody "Server not configured"), reads ++ writes⟩
          else
            let systemText := orElse env.SYSTEM_PROMPT defaultSystemText
            let call := upstreamCallOf model (apiKey.getD "") systemText (stringOf prompt)
            let started := reads ++ writes ++ [Effect.upstreamCall call]
            match rt.upstream call with
            | .networkError => ⟨badRequest, started⟩
            | .notJson => ⟨badRequest, started⟩
            | .json data =>
              match orNullish (extractText data) (.str fallbackText) with
              | .str text => ⟨jsonResponse 200 cors (.obj [("draft", .str (sanitize text))]), started⟩
              | _ => ⟨badRequest, started⟩

/-! ## Requests handled one after another -/

/-- The store after one interaction: a `put` overwrites the entry of its key. -/
def applyEffect (kv : Store) : Effect → Store
  | .kvPut key value _ => fun k => if k = key then some value else kv k
  | _ => kv

/-- The store after the interactions of a run. -/
def applyEffects (kv : Store) (effects : List Effect) : Store :=
  effects.foldl applyEffect kv

/-- The environment once the writes of a run have been applied to its store. -/
def envAfter (conv : NumberConv) (env : Env) (request : Request) (rt : Runtime) : Env :=
  { env with RATE_LIMIT := applyEffects env.RATE_LIMIT (fetch conv request env rt).effects }

/-- Requests handled one after another: the writes of a run are applied to the
store before the next request is handled. Returns the runs, each with the store
it read from. -/
def serve (conv : NumberConv) (env : Env) : List (Request × Runtime) → List (Store × Outcome)
  | [] => []
  | (request, rt) :: rest =>
    (env.RATE_LIMIT, fetch conv request env rt) :: serve conv (envAfter conv env request rt) rest

/-- A run got past the rate check: it went on to write the counters. -/
def Outcome.pastRateCheck (out : Outcome) : Bool :=
  out.effects.any fun e =>
    match e with
    | .kvPut _ _ _ => true
    | _ => false

/-! ## Vocabulary of the properties -/

/-- The response is the JSON error `{"error": msg}` with the given status. -/
def Response.IsError (r : Response) (status : Nat) (msg : String) : Prop :=
  r.status = status ∧ r.body = .json (errorBody msg)

/-- The response is the success `{"draft": d}` with status 200. -/
def Response.IsDraft (r : Response) (d : String) : Prop :=
  r.status = 200 ∧ r.body = .json (.obj [("draft", .str d)])

/-- The value of a response header, as given to the constructor. -/
def Response.header (r : Response) (name : String) : Option String :=
  r.headers.lookup name

/-- The outbound calls among the interactions of a run. -/
def upstreamCalls (effects : List Effect) : List UpstreamRequest :=
  effects.filterMap fun e =>
    match e with
    | .upstreamCall call => some call
    | _ => none

/-- The parsed body carries the string `p` in its field `prompt`. -/
def HasPrompt (v : JsonVal) (p : String) : Prop :=
  v.field "prompt" = some (.str p)

/-- The caller identity of line 26. -/
def identityOf (request : Request) : String :=
  orElse request.connectingIp "anon"

/-- The outbound call the handler makes for a prompt under an environment. -/
def callFor (env : Env) (prompt : String) : UpstreamRequest :=
  upstreamCallOf (orElse env.MODEL "gemini-2.0-flash") (env.GEMINI_API_KEY.getD "")
    (orElse env.SYSTEM_PROMPT defaultSystemText) prompt

/-- The rate check of line 34 for a request, an environment and the two clock readings. -/
def rateLimited (conv : NumberConv) (request : Request) (env : Env) (rt : Runtime) : Bool :=
  (countOf conv (env.RATE_LIMIT (minuteKey (identityOf request) rt.nowMinute))).ge
      (limitOf conv env.MINUTE_LIMIT 3) ||
    (countOf conv (env.RATE_LIMIT (dayKey (identityOf request) rt.nowDay))).ge
      (limitOf conv env.DAILY_LIMIT 20)

/-- The two counter reads of a run that reaches the rate check. -/
def counterReads (request : Request) (rt : Runtime) : List Effect :=
  [.kvGet (minuteKey (identityOf request) rt.nowMinute),
   .kvGet (dayKey (identityOf request) rt.nowDay)]

/-- The two counter writes of a run that gets past the rate check. -/
def counterWrites (conv : NumberConv) (request : Request) (env : Env) (rt : Runtime) :
    List Effect :=
  [.kvPut (minuteKey (identityOf request) rt.nowMinute)
     (conv.toStr (countOf conv (env.RATE_LIMIT (minuteKey (identityOf request) rt.nowMinute))).add1)
     90,
   .kvPut (dayKey (identityOf request) rt.nowDay)
     (conv.toStr (countOf conv (env.RATE_LIMIT (dayKey (identityOf request) rt.nowDay))).add1)
     86460]

/-- The response to a run whose outbound call ended with `result` (lines 61 to 67). -/
def responseTo (request : Request) (result : UpstreamResult) : Response :=
  match result with
  | .networkError => badRequest
  | .notJson => badRequest
  | .json data =>
    match orNullish (extractText data) (.str fallbackText) with
    | .str text =>
      jsonResponse 200 (corsHeaders request.origin) (.obj [("draft", .str (sanitize text))])
    | _ => badRequest

/-- The read `body.contents[0].parts[0].text` on the payload of an outbound call. -/
def promptOf (body : JsonVal) : Option JsonVal :=
  optField (optIndex0 (optField (optIndex0 (optField (some body) "contents")) "parts")) "text"

/-- A step of a path into a value: a named field, or the index 0. -/
inductive Step where
  | field (name : String)
  | index0

/-- The path `candidates[0].content.parts[0].text`. -/
def textPath : List Step :=
  [.field "candidates", .index0, .field "content", .field "parts", .index0, .field "text"]

/-- One step from a value that is not `null`; `none` when the step is missing. -/
def JsonVal.step (v : JsonVal) : Step → Option JsonVal
  | .field name => v.field name
  | .index0 => v.index0

/-- Following a path: `none` when the value at hand is `null` or a step is
missing, otherwise the value found at the end. -/
def resolve : List Step → JsonVal → Option JsonVal
  | _, .null => none
  | [], v => some v
  | s :: rest, v =>
    match v.step s with
    | none => none
    | some w => resolve rest w

/-- One optional read of the handler, by the step it takes. -/
def optStep (acc : Option JsonVal) : Step → Option JsonVal
  | .field name => optField acc name
  | .index0 => optIndex0 acc

/-- A request that gets past the rate check: a POST whose body carries a
non-empty string prompt, with both counters under their limits. -/
def Passes (conv : NumberConv) (request : Request) (env : Env) (rt : Runtime) : Prop :=
  request.method = "POST" ∧
    ∃ v p, request.body = some v ∧ HasPrompt v p ∧ p ≠ "" ∧
      rateLimited conv request env rt = false

/-- Both counters of the bucket keys `mk` and `dk` read as the natural number `k`. -/
def Counted (conv : NumberConv) (kv : Store) (mk dk : String) (k : Nat) : Prop :=
  countOf conv (kv mk) = .fin k ∧ countOf conv (kv dk) = .fin k

/-- The number of runs that got past the rate check. -/
def passCount (runs : List (Store × Outcome)) : Nat :=
  runs.countP fun x => x.2.pastRateCheck

/-- Every request of the sequence comes from the identity `ip`, with both of its
clock readings in the UTC minute of `t0`. -/
def FromWithin (ip : String) (t0 : UtcTime) (reqs : List (Request × Runtime)) : Prop :=
  ∀ x ∈ reqs, identityOf x.1 = ip ∧ SameMinute x.2.nowMinute t0 ∧ SameMinute x.2.nowDay t0

/-- The conversions take the numeral written for the natural number `n` back to `n`,
and that numeral is not empty. -/
def RoundTrips (conv : NumberConv) (n : Nat) : Prop :=
  conv.toStr (.fin (n : ℚ)) ≠ "" ∧ conv.toNumber (conv.toStr (.fin (n : ℚ))) = .fin (n : ℚ)

/-- The request is a POST whose body carries a non-empty string prompt. -/
def ValidPost (request : Request) : Prop :=
  request.method = "POST" ∧ ∃ v p, request.body = some v ∧ HasPrompt v p ∧ p ≠ ""

/-! ## Sample data -/

/-- The value of a list of decimal digits. -/
def digitsValue (cs : List Char) : Nat :=
  cs.foldl (fun acc c => 10 * acc + (c.toNat - 48)) 0

/-- The value of an unsigned decimal literal without exponent (`12`, `2.5`, `.5`,
`5.`), `none` for any other string. -/
def decimalValue (s : String) : Option ℚ :=
  let whole := s.data.takeWhile Char.isDigit
  match s.data.dropWhile Char.isDigit with
  | [] => if whole ≠ [] then some (digitsValue whole : ℚ) else none
  | '.' :: frac =>
    if frac.all Char.isDigit ∧ (whole ≠ [] ∨ frac ≠ []) then
      some ((digitsValue whole : ℚ) + (digitsValue frac : ℚ) / (10 : ℚ) ^ frac.length)
    else none
  | _ => none

/-- A pair of conversions for the examples. `toNumber` is right on the empty
string and on the unsigned decimal literals without exponent, `toStr` on the
natural numbers below `10 ^ 21`; elsewhere both answer `NaN`, which no example
reaches. -/
def sampleConv : NumberConv where
  toNumber s :=
    if s = "" then .fin 0
    else match decimalValue s with
      | some x => .fin x
      | none => .nan
  toStr
    | .fin x => if x.den = 1 ∧ 0 ≤ x.num then ⟨Nat.toDigits 10 x.num.toNat⟩ else "NaN"
    | _ => "NaN"

/-- An instant: 17 May 2024, 13:45:07.123 UTC. -/
def sampleTime : UtcTime := ⟨2024, 4, 16, 13, 45, 7, 123⟩

/-- An environment with the API key set, default limits and an empty store. -/
def sampleEnv : Env := ⟨none, none, none, some "secret", none, fun _ => none⟩

/-- An upstream response carrying `text` at the expected path. -/
def upstreamJson (text : JsonVal) : JsonVal :=
  .obj [("candidates", .arr [.obj [("content", .obj [("parts", .arr [.obj [("text", text)]])])]])]

/-- A runtime whose upstream service answers every call with `data`. -/
def sampleRuntime (data : JsonVal) : Runtime := ⟨sampleTime, sampleTime, fun _ => .json data⟩

/-- A request with the given method, headers absent, and the given parsed body. -/
def sampleRequest (method : String) (body : Option JsonVal) : Request :=
  ⟨method, none, none, body⟩

/-- The body `{"prompt": p}`. -/
def promptBody (p : String) : JsonVal := .obj [("prompt", .str p)]

/-- A store holding `value` under `key` and nothing else. -/
def storeWith (key value : String) : Store :=
  fun k => if k = key then some value else none

/-- Four requests of one caller within one minute: three POSTs and a preflight. -/
def sampleBurst : List (Request × Runtime) :=
  [(sampleRequest "POST" (some (promptBody "one")), sampleRuntime .null),
   (sampleRequest "OPTIONS" none, sampleRuntime .null),
   (sampleRequest "POST" (some (promptBody "two")), sampleRuntime .null),
   (sampleRequest "POST" (some (promptBody "three")), sampleRuntime .null)]

/-- Three valid POSTs of one caller within one minute. -/
def sampleTriple : List (Request × Runtime) :=
  [(sampleRequest "POST" (some (promptBody "one")), sampleRuntime .null),
   (sampleRequest "POST" (some (promptBody "two")), sampleRuntime .null),
   (sampleRequest "POST" (some (promptBody "three")), sampleRuntime .null)]

/-! ### Vocabulary for the properties of fence stripping -/

/-- An occurrence of the fence at position `p`. -/
def Occ (l : List Char) (p : Nat) : Prop :=
  l[p]? = some '`' ∧ l[p + 1]? = some '`' ∧ l[p + 2]? = some '`'

/-- No text of the input matches the pattern: no two fences three or more apart. -/
def NoFence (l : List Char) : Prop :=
  ∀ p q, Occ l p → p + 3 ≤ q → ¬ Occ l q

/-- Scanning invariant: with `g` the text already emitted and `l` the text still
to scan, no fence of `g ++ l` starts inside `g`. -/
def ScanInv (g l : List Char) : Prop :=
  ∀ p, p < g.length → ¬ Occ (g ++ l) p

/-! ## Fence stripping -/

theorem fence_isPrefixOf_iff (l : List Char) : fence.isPrefixOf l = true ↔ Occ l 0 := by
  unfold Occ fence
  match l with
  | [] => simp [List.isPrefixOf]
  | [a] => simp [List.isPrefixOf]
  | [a, b] => simp [List.isPrefixOf]
  | a :: b :: c :: r =>
    simp [List.isPrefixOf]
    constructor
    · rintro ⟨h1, h2, h3⟩; exact ⟨h1.symm, h2.symm, h3.symm⟩
    · rintro ⟨h1, h2, h3⟩; exact ⟨h1.symm, h2.symm, h3.symm⟩

theorem Occ_cons (c : Char) (cs : List Char) (p : Nat) : Occ (c :: cs) (p + 1) ↔ Occ cs p := by
  simp [Occ]

theorem Occ_drop (l : List Char) (k p : Nat) : Occ (l.drop k) p ↔ Occ l (k + p) := by
  simp [Occ, List.getElem?_drop, Nat.add_assoc]

theorem Occ_append_right (g l : List Char) (p : Nat) :
    Occ (g ++ l) (g.length + p) ↔ Occ l p := by
  induction g with
  | nil => simp
  | cons a g ih =>
    have : (a :: g).length + p = (g.length + p) + 1 := by simp; omega
    rw [this, List.cons_append, Occ_cons, ih]

theorem afterClose_eq_none (l : List Char) : afterClose l = none ↔ ∀ q, ¬ Occ l q := by
  induction l with
  | nil => simp [afterClose, Occ]
  | cons c cs ih =>
    unfold afterClose
    by_cases h : fence.isPrefixOf (c :: cs) = true
    · simp only [h, if_true]
      constructor
      · intro h'; cases h'
      · intro h'; exact absurd ((fence_isPrefixOf_iff _).mp h) (h' 0)
    · simp only [h, if_false, Bool.false_eq_true]
      rw [ih]
      constructor
      · intro h' q
        cases q with
        | zero => exact fun ho => h ((fence_isPrefixOf_iff _).mpr ho)
        | succ q => rw [Occ_cons]; exact h' q
      · intro h' q
        have := h' (q + 1)
        rwa [Occ_cons] at this

theorem matchFence_eq_none (l : List Char) :
    matchFence l = none ↔ (¬ Occ l 0 ∨ ∀ q, 3 ≤ q → ¬ Occ l q) := by
  unfold matchFence
  by_cases h : fence.isPrefixOf l = true
  · simp only [h, if_true, afterClose_eq_none, Occ_drop]
    have h0 := (fence_isPrefixOf_iff _).mp h
    constructor
    · intro h' ; right; intro q hq
      have := h' (q - 3)
      rwa [show 3 + (q - 3) = q by omega] at this
    · rintro (h' | h') q
      · exact absurd h0 h'
      · exact h' _ (by omega)
  · simp only [h, if_false, Bool.false_eq_true, true_iff]
    left
    exact fun ho => h ((fence_isPrefixOf_iff _).mpr ho)

theorem stripFences_cons_none (c : Char) (cs : List Char) (h : matchFence (c :: cs) = none) :
    stripFences (c :: cs) = c :: stripFences cs := by
  rw [stripFences]
  split
  · rename_i h'; rw [h] at h'; cases h'
  · rfl

theorem stripFences_cons_some (c : Char) (cs rest : List Char)
    (h : matchFence (c :: cs) = some rest) :
    stripFences (c :: cs) = stripFences rest := by
  rw [stripFences]
  split
  · rename_i r h'; rw [h] at h'; cases h'; rfl
  · rename_i h'; rw [h] at h'; cases h'

theorem NoFence_tail (c : Char) (cs : List Char) (h : NoFence (c :: cs)) : NoFence cs := by
  intro p q hp hpq hq
  exact h (p + 1) (q + 1) ((Occ_cons _ _ _).mpr hp) (by omega) ((Occ_cons _ _ _).mpr hq)

/-- Without a match anywhere, fence stripping changes nothing. -/
theorem stripFences_of_NoFence : ∀ (l : List Char), NoFence l → stripFences l = l
  | [], _ => by simp [stripFences]
  | c :: cs, h => by
    have hm : matchFence (c :: cs) = none := by
      rw [matchFence_eq_none]
      by_cases h0 : Occ (c :: cs) 0
      · right; intro q hq; exact h 0 q h0 (by omega)
      · left; exact h0
    rw [stripFences_cons_none _ _ hm, stripFences_of_NoFence cs (NoFence_tail _ _ h)]

theorem getElem?_append_lt (g l : List Char) (p : Nat) (h : p < g.length) :
    (g ++ l)[p]? = g[p]? := List.getElem?_append_left h

theorem getElem?_append_ge (g l : List Char) (i : Nat) :
    (g ++ l)[g.length + i]? = l[i]? := by
  rw [List.getElem?_append_right (by omega)]
  simp

theorem ScanInv_skip (g l rest : List Char) (h0 : Occ l 0) (h : ScanInv g l) :
    ScanInv g rest := by
  intro p hp ho
  obtain ⟨o1, o2, o3⟩ := ho
  obtain ⟨l1, l2, _⟩ := h0
  by_cases hin : p + 3 ≤ g.length
  · apply h p hp
    refine ⟨?_, ?_, ?_⟩
    · rw [getElem?_append_lt _ _ _ (by omega)] at o1 ⊢; exact o1
    · rw [getElem?_append_lt _ _ _ (by omega)] at o2 ⊢; exact o2
    · rw [getElem?_append_lt _ _ _ (by omega)] at o3 ⊢; exact o3
  · have hlast : g[g.length - 1]? = some '`' := by
      by_cases h1 : p + 1 = g.length
      · rw [getElem?_append_lt _ _ _ hp] at o1
        rw [show g.length - 1 = p by omega]; exact o1
      · by_cases h2 : p + 2 = g.length
        · rw [getElem?_append_lt _ _ _ (by omega)] at o2
          rw [show g.length - 1 = p + 1 by omega]; exact o2
        · rw [getElem?_append_lt _ _ _ (by omega)] at o3
          rw [show g.length - 1 = p + 2 by omega]; exact o3
    apply h (g.length - 1) (by omega)
    refine ⟨?_, ?_, ?_⟩
    · rw [getElem?_append_lt _ _ _ (by omega)]; exact hlast
    · rw [show g.length - 1 + 1 = g.length + 0 by omega, getElem?_append_ge]; exact l1
    · rw [show g.length - 1 + 2 = g.length + 1 by omega, getElem?_append_ge]; exact l2

theorem ScanInv_snoc (g : List Char) (c : Char) (cs : List Char)
    (h0 : ¬ Occ (c :: cs) 0) (h : ScanInv g (c :: cs)) : ScanInv (g ++ [c]) cs := by
  intro p hp ho
  have e : (g ++ [c]) ++ cs = g ++ c :: cs := by simp
  rw [e] at ho
  simp at hp
  by_cases hlt : p < g.length
  · exact h p hlt ho
  · have hp' : p = g.length + 0 := by omega
    rw [hp', Occ_append_right] at ho
    exact h0 ho

theorem NoFence_of_ScanInv_nil (g : List Char) (h : ScanInv g []) : NoFence g := by
  intro p q hp _ _
  by_cases hlt : p < g.length
  · have := h p hlt
    rw [List.append_nil] at this
    exact this hp
  · obtain ⟨o1, _, _⟩ := hp
    rw [List.getElem?_eq_none (by omega)] at o1
    cases o1

theorem NoFence_of_unclosed (g l : List Char) (h : ScanInv g l)
    (hc : ∀ q, 3 ≤ q → ¬ Occ l q) : NoFence (g ++ l) := by
  intro p q hp hpq hq
  by_cases hlt : p < g.length
  · exact h p hlt hp
  · have hq' : q = g.length + (q - g.length) := by omega
    rw [hq', Occ_append_right] at hq
    exact hc _ (by omega) hq

/-- Whatever has been emitted, the emitted text followed by the stripped rest
has no match left. -/
theorem NoFence_append_stripFences (l : List Char) :
    ∀ g, ScanInv g l → NoFence (g ++ stripFences l) := by
  induction l using stripFences.induct with
  | case1 =>
    intro g h
    simpa [stripFences] using NoFence_of_ScanInv_nil g h
  | case2 c cs rest hm ih =>
    intro g h
    rw [stripFences_cons_some _ _ _ hm]
    apply ih
    have h0 : Occ (c :: cs) 0 := by
      by_contra hn
      have := (matchFence_eq_none (c :: cs)).mpr (Or.inl hn)
      rw [this] at hm; cases hm
    exact ScanInv_skip g (c :: cs) rest h0 h
  | case3 c cs hm ih =>
    intro g h
    rw [stripFences_cons_none _ _ hm]
    by_cases h0 : Occ (c :: cs) 0
    · have hc : ∀ q, 3 ≤ q → ¬ Occ (c :: cs) q := by
        rcases (matchFence_eq_none _).mp hm with h' | h'
        · exact absurd h0 h'
        · exact h'
      have hnf : NoFence (c :: cs) := fun p q _ hpq hq => hc q (by omega) hq
      have e := stripFences_of_NoFence _ hnf
      rw [stripFences_cons_none _ _ hm] at e
      rw [e]
      exact NoFence_of_unclosed g (c :: cs) h hc
    · have := ih (g ++ [c]) (ScanInv_snoc g c cs h0 h)
      simpa using this

theorem NoFence_stripFences (l : List Char) : NoFence (stripFences l) := by
  have := NoFence_append_stripFences l [] (fun p hp => by simp at hp)
  simpa using this

theorem stripFences_idem (l : List Char) : stripFences (stripFences l) = stripFences l :=
  stripFences_of_NoFence _ (NoFence_stripFences l)

theorem NoFence_infix (a m b : List Char) (h : NoFence (a ++ m ++ b)) : NoFence m := by
  intro p q hp hpq hq
  have lift : ∀ r, Occ m r → Occ (a ++ m ++ b) (a.length + r) := by
    intro r hr
    rw [List.append_assoc, Occ_append_right]
    obtain ⟨r1, r2, r3⟩ := hr
    have hlen : r + 2 < m.length := by
      by_contra hn
      rw [List.getElem?_eq_none (by omega)] at r3; cases r3
    exact ⟨by rw [getElem?_append_lt _ _ _ (by omega)]; exact r1,
           by rw [getElem?_append_lt _ _ _ (by omega)]; exact r2,
           by rw [getElem?_append_lt _ _ _ (by omega)]; exact r3⟩
  exact h _ _ (lift p hp) (by omega) (lift q hq)

theorem trimChars_infix (l : List Char) : ∃ a b, l = a ++ trimChars l ++ b := by
  obtain ⟨a, ha⟩ := List.dropWhile_suffix (l := l) isJsSpace
  obtain ⟨b, hb⟩ := List.rdropWhile_prefix (p := isJsSpace) (l := l.dropWhile isJsSpace)
  refine ⟨a, b, ?_⟩
  unfold trimChars
  rw [List.append_assoc, hb, ha]

theorem NoFence_trimChars (l : List Char) (h : NoFence l) : NoFence (trimChars l) := by
  obtain ⟨a, b, e⟩ := trimChars_infix l
  rw [e] at h
  exact NoFence_infix a _ b h

theorem trimChars_idem (l : List Char) : trimChars (trimChars l) = trimChars l := by
  unfold trimChars
  have h1 : List.dropWhile isJsSpace ((l.dropWhile isJsSpace).rdropWhile isJsSpace)
      = (l.dropWhile isJsSpace).rdropWhile isJsSpace := by
    obtain ⟨t, ht⟩ := List.rdropWhile_prefix (p := isJsSpace) (l := l.dropWhile isJsSpace)
    generalize (l.dropWhile isJsSpace).rdropWhile isJsSpace = b at ht ⊢
    cases b with
    | nil => rfl
    | cons x b =>
      have hne : l.dropWhile isJsSpace ≠ [] := by rw [← ht]; simp
      have hx := List.head_dropWhile_not isJsSpace l hne
      have hh : (l.dropWhile isJsSpace).head hne = x := by
        simp only [← ht, List.cons_append, List.head_cons]
      rw [hh] at hx
      simp [hx]
  rw [h1, List.rdropWhile_idempotent]

theorem sanitizeChars_idem (l : List Char) : sanitizeChars (sanitizeChars l) = sanitizeChars l := by
  unfold sanitizeChars
  rw [stripFences_of_NoFence _ (NoFence_trimChars _ (NoFence_stripFences l)), trimChars_idem]

theorem sanitize_idem (t : String) : sanitize (sanitize t) = sanitize t := by
  simp [sanitize, sanitizeChars_idem]

/-! ## The handler -/

theorem fetch_options (conv : NumberConv) (request : Request) (env : Env) (rt : Runtime)
    (h : request.method = "OPTIONS") :
    fetch conv request env rt = ⟨⟨204, corsHeaders request.origin, .empty⟩, []⟩ := by
  simp [fetch, h]

theorem fetch_other_method (conv : NumberConv) (request : Request) (env : Env) (rt : Runtime)
    (h1 : request.method ≠ "OPTIONS") (h2 : request.method ≠ "POST") :
    fetch conv request env rt =
      ⟨⟨405, corsHeaders request.origin, .text "Method not allowed"⟩, []⟩ := by
  simp [fetch, h1, h2]

theorem fetch_post_unparsed (conv : NumberConv) (request : Request) (env : Env) (rt : Runtime)
    (hm : request.method = "POST") (hb : request.body = none) :
    fetch conv request env rt = ⟨badRequest, []⟩ := by
  simp [fetch, hm, hb]

/-- Claim C8, amended. Every OPTIONS request is answered with status 204, an
empty body and the CORS headers; `Access-Control-Allow-Origin` echoes the
`Origin` header when it is present and not empty, and is `*` when it is absent
or empty. -/
theorem options_preflight (conv : NumberConv) (request : Request) (env : Env) (rt : Runtime)
    (h : request.method = "OPTIONS") :
    (fetch conv request env rt).response.status = 204 ∧
    (fetch conv request env rt).response.body = .empty ∧
    (fetch conv request env rt).response.header "Access-Control-Allow-Methods" = some "POST, OPTIONS" ∧
    (fetch conv request env rt).response.header "Access-Control-Allow-Headers" = some "Content-Type" ∧
    (fetch conv request env rt).response.header "Access-Control-Max-Age" = some "86400" ∧
    (fetch conv request env rt).response.header "Vary" = some "Origin" ∧
    (∀ o, request.origin = some o → o ≠ "" →
      (fetch conv request env rt).response.header "Access-Control-Allow-Origin" = some o) ∧
    (request.origin = none ∨ request.origin = some "" →
      (fetch conv request env rt).response.header "Access-Control-Allow-Origin" = some "*") := by
  rw [fetch_options conv request env rt h]
  refine ⟨rfl, rfl, rfl, rfl, rfl, rfl, ?_, ?_⟩
  · intro o ho hne
    simp [Response.header, corsHeaders, List.lookup, ho, orElse, hne]
  · rintro (ho | ho) <;> simp [Response.header, corsHeaders, List.lookup, ho, orElse]

/-- Claim C8, amended, at the origin `https://example.org`. -/
theorem options_preflight_witness :
    (fetch sampleConv ⟨"OPTIONS", some "https://example.org", none, none⟩ sampleEnv
      (sampleRuntime .null)).response.header "Access-Control-Allow-Origin"
      = some "https://example.org" :=
  (options_preflight sampleConv ⟨"OPTIONS", some "https://example.org", none, none⟩ sampleEnv
    (sampleRuntime .null) rfl).2.2.2.2.2.2.1 "https://example.org" rfl (by decide)

/-- Claim C8 as stated fails: an `Origin` header that is present with the empty
value is answered with `*`, not with that value. -/
theorem options_empty_origin :
    (⟨"OPTIONS", some "", none, none⟩ : Request).origin = some "" ∧
    (fetch sampleConv ⟨"OPTIONS", some "", none, none⟩ sampleEnv
      (sampleRuntime .null)).response.header "Access-Control-Allow-Origin" = some "*" ∧
    (fetch sampleConv ⟨"OPTIONS", some "", none, none⟩ sampleEnv
      (sampleRuntime .null)).response.header "Access-Control-Allow-Origin" ≠ some "" := by
  decide

/-- Claim C9. A POST whose body does not parse as JSON is answered with status
400 and `{"error":"Bad request"}`, with `Content-Type: application/json` as the
only header, and without any counter read or write or upstream call. -/
theorem post_unparsed_body (conv : NumberConv) (request : Request) (env : Env) (rt : Runtime)
    (hm : request.method = "POST") (hb : request.body = none) :
    (fetch conv request env rt).response.IsError 400 "Bad request" ∧
    (fetch conv request env rt).response.headers = [("Content-Type", "application/json")] ∧
    (fetch conv request env rt).effects = [] := by
  rw [fetch_post_unparsed conv request env rt hm hb]
  exact ⟨⟨rfl, rfl⟩, rfl, rfl⟩

/-- Claim C9, at a POST with an unparsable body. -/
theorem post_unparsed_body_witness :
    (fetch sampleConv (sampleRequest "POST" none) sampleEnv (sampleRuntime .null)).response.IsError
      400 "Bad request" :=
  (post_unparsed_body sampleConv (sampleRequest "POST" none) sampleEnv (sampleRuntime .null)
    rfl rfl).1

/-- The guard of line 21 lets through exactly the non-empty strings. -/
theorem prompt_guard (v : Option JsonVal) :
    (!truthy v || typeOf v != "string") = false ↔ ∃ p, v = some (.str p) ∧ p ≠ "" := by
  match v with
  | none => simp [truthy, typeOf]
  | some .null => simp [truthy, typeOf]
  | some (.bool b) => simp [truthy, typeOf]
  | some (.num x) => simp [truthy, typeOf]
  | some (.str s) => simp [truthy, typeOf]
  | some (.arr l) => simp [truthy, typeOf]
  | some (.obj l) => simp [truthy, typeOf]

/-- The handler on a POST whose body parsed to a value other than `null`, up to the guard. -/
theorem fetch_post_invalid (conv : NumberConv) (request : Request) (env : Env) (rt : Runtime)
    (v : JsonVal) (hm : request.method = "POST") (hb : request.body = some v) (hv : v ≠ .null)
    (hg : ¬ ∃ p, HasPrompt v p ∧ p ≠ "") :
    fetch conv request env rt =
      ⟨jsonResponse 400 (corsHeaders request.origin) (errorBody "Missing prompt"), []⟩ := by
  have hg' : (!truthy (v.field "prompt") || typeOf (v.field "prompt") != "string") = true := by
    by_contra hc
    rw [Bool.not_eq_true, prompt_guard] at hc
    exact hg hc
  unfold fetch
  simp only [hm, hb]
  cases v <;> first | exact absurd rfl hv | simp [hg']

/-- The handler on a POST with a non-empty string prompt and the rate check tripped. -/
theorem fetch_post_limited (conv : NumberConv) (request : Request) (env : Env) (rt : Runtime)
    (v : JsonVal) (p : String) (hm : request.method = "POST") (hb : request.body = some v)
    (hp : HasPrompt v p) (hne : p ≠ "") (hl : rateLimited conv request env rt = true) :
    fetch conv request env rt =
      ⟨jsonResponse 429 (corsHeaders request.origin) (errorBody "Rate limit exceeded"),
       [.kvGet (minuteKey (identityOf request) rt.nowMinute),
        .kvGet (dayKey (identityOf request) rt.nowDay)]⟩ := by
  have hg : (!truthy (v.field "prompt") || typeOf (v.field "prompt") != "string") = false :=
    (prompt_guard _).mpr ⟨p, hp, hne⟩
  unfold rateLimited identityOf at hl
  unfold HasPrompt at hp
  unfold fetch
  simp only [hm, hb]
  cases v <;> first | (simp [JsonVal.field] at hp; done) | simp [hg, hl, identityOf]

/-- The handler on a POST that got past the rate check without an API key. -/
theorem fetch_post_unconfigured (conv : NumberConv) (request : Request) (env : Env)
    (rt : Runtime) (v : JsonVal) (p : String) (hm : request.method = "POST")
    (hb : request.body = some v) (hp : HasPrompt v p) (hne : p ≠ "")
    (hl : rateLimited conv request env rt = false) (hk : strTruthy env.GEMINI_API_KEY = false) :
    fetch conv request env rt =
      ⟨jsonResponse 500 (corsHeaders request.origin) (errorBody "Server not configured"),
       counterReads request rt ++ counterWrites conv request env rt⟩ := by
  have hg : (!truthy (v.field "prompt") || typeOf (v.field "prompt") != "string") = false :=
    (prompt_guard _).mpr ⟨p, hp, hne⟩
  unfold rateLimited identityOf at hl
  unfold HasPrompt at hp
  unfold fetch
  simp only [hm, hb]
  cases v <;> first
    | (simp [JsonVal.field] at hp; done)
    | simp [hg, hl, hk, identityOf, counterReads, counterWrites]

/-- The handler on a POST that got past the rate check with an API key. -/
theorem fetch_post_called (conv : NumberConv) (request : Request) (env : Env)
    (rt : Runtime) (v : JsonVal) (p : String) (hm : request.method = "POST")
    (hb : request.body = some v) (hp : HasPrompt v p) (hne : p ≠ "")
    (hl : rateLimited conv request env rt = false) (hk : strTruthy env.GEMINI_API_KEY = true) :
    fetch conv request env rt =
      ⟨responseTo request (rt.upstream (callFor env p)),
       counterReads request rt ++ counterWrites conv request env rt ++
         [.upstreamCall (callFor env p)]⟩ := by
  have hg : (!truthy (v.field "prompt") || typeOf (v.field "prompt") != "string") = false :=
    (prompt_guard _).mpr ⟨p, hp, hne⟩
  unfold rateLimited identityOf at hl
  unfold HasPrompt at hp
  unfold fetch
  simp only [hm, hb]
  cases v <;> first
    | (simp [JsonVal.field] at hp; done)
    | (simp only [hp] at hg ⊢
       simp only [hg, hl, hk, identityOf, counterReads, counterWrites, callFor, stringOf,
         responseTo]
       simp
       cases rt.upstream _ <;> simp
       split <;> simp_all)

theorem JsNum.ge_of_lt (a b : JsNum) (h : a.lt b = true) : a.ge b = false := by
  cases a <;> cases b <;> simp_all [JsNum.lt, JsNum.ge]

/-- Claim C2. A POST with a non-empty string prompt whose minute counter has
reached the minute limit, or whose day counter has reached the daily limit (a
missing counter reads as 0, the limits default to 3 and 20), is answered with
status 429 and `{"error":"Rate limit exceeded"}`, and no upstream call is made. -/
theorem rate_limit_exceeded (conv : NumberConv) (request : Request) (env : Env) (rt : Runtime)
    (v : JsonVal) (p : String) (hm : request.method = "POST") (hb : request.body = some v)
    (hp : HasPrompt v p) (hne : p ≠ "")
    (hl : (countOf conv (env.RATE_LIMIT (minuteKey (identityOf request) rt.nowMinute))).ge
            (limitOf conv env.MINUTE_LIMIT 3) = true ∨
          (countOf conv (env.RATE_LIMIT (dayKey (identityOf request) rt.nowDay))).ge
            (limitOf conv env.DAILY_LIMIT 20) = true) :
    (fetch conv request env rt).response.IsError 429 "Rate limit exceeded" ∧
    upstreamCalls (fetch conv request env rt).effects = [] := by
  have hl' : rateLimited conv request env rt = true := by
    unfold rateLimited
    rcases hl with h | h <;> simp [h]
  rw [fetch_post_limited conv request env rt v p hm hb hp hne hl']
  exact ⟨⟨rfl, rfl⟩, rfl⟩

/-- Claim C2, at a request whose minute counter holds 3 under the default limit 3. -/
theorem rate_limit_exceeded_witness :
    (fetch sampleConv (sampleRequest "POST" (some (promptBody "hello")))
      { sampleEnv with RATE_LIMIT := storeWith (minuteKey "anon" sampleTime) "3" }
      (sampleRuntime .null)).response.IsError 429 "Rate limit exceeded" :=
  (rate_limit_exceeded sampleConv (sampleRequest "POST" (some (promptBody "hello")))
    { sampleEnv with RATE_LIMIT := storeWith (minuteKey "anon" sampleTime) "3" }
    (sampleRuntime .null) (promptBody "hello") "hello" rfl rfl rfl (by decide)
    (Or.inl (by decide))).1

theorem strTruthy_some (k : String) (hk : k ≠ "") : strTruthy (some k) = true := by
  simp [strTruthy, hk]

theorem promptOf_callFor (env : Env) (p : String) :
    promptOf (callFor env p).body = some (.str p) := rfl

theorem upstreamCalls_called (conv : NumberConv) (request : Request) (env : Env) (rt : Runtime)
    (call : UpstreamRequest) :
    upstreamCalls (counterReads request rt ++ counterWrites conv request env rt ++
      [.upstreamCall call]) = [call] := rfl

theorem responseTo_string (request : Request) (data : JsonVal) (u : String)
    (h : extractText data = some (.str u)) :
    (responseTo request (.json data)).IsDraft (sanitize u) := by
  simp [responseTo, h, orNullish, jsonResponse, Response.IsDraft]

/-- Claim C3. A POST with a non-empty string prompt `p`, both counters below
their limits and a configured API key makes exactly one upstream call, whose
payload carries `p` at `contents[0].parts[0].text`; and when the upstream JSON
carries a string `u` at `candidates[0].content.parts[0].text`, the answer is
status 200 with `{"draft": d}`, `d` being `u` sanitised. -/
theorem post_success (conv : NumberConv) (request : Request) (env : Env) (rt : Runtime)
    (v : JsonVal) (p k : String) (hm : request.method = "POST") (hb : request.body = some v)
    (hp : HasPrompt v p) (hne : p ≠ "")
    (hmin : (countOf conv (env.RATE_LIMIT (minuteKey (identityOf request) rt.nowMinute))).lt
              (limitOf conv env.MINUTE_LIMIT 3) = true)
    (hday : (countOf conv (env.RATE_LIMIT (dayKey (identityOf request) rt.nowDay))).lt
              (limitOf conv env.DAILY_LIMIT 20) = true)
    (hk : env.GEMINI_API_KEY = some k) (hk' : k ≠ "") :
    ∃ call, upstreamCalls (fetch conv request env rt).effects = [call] ∧
      promptOf call.body = some (.str p) ∧
      ∀ data u, rt.upstream call = .json data → extractText data = some (.str u) →
        (fetch conv request env rt).response.IsDraft (sanitize u) := by
  have hl : rateLimited conv request env rt = false := by
    unfold rateLimited
    rw [JsNum.ge_of_lt _ _ hmin, JsNum.ge_of_lt _ _ hday]; rfl
  have hkey : strTruthy env.GEMINI_API_KEY = true := by rw [hk]; exact strTruthy_some k hk'
  rw [fetch_post_called conv request env rt v p hm hb hp hne hl hkey]
  refine ⟨callFor env p, upstreamCalls_called _ _ _ _ _, promptOf_callFor env p, ?_⟩
  intro data u hu ht
  simp only [hu]
  exact responseTo_string request data u ht

theorem sanitize_sample : sanitize " Hi ```js\ncode``` there " = "Hi  there" := by
  simp [sanitize, sanitizeChars, stripFences, matchFence, afterClose, fence, trimChars,
    List.rdropWhile, isJsSpace]

/-- Claim C3, at the prompt `hello` and an upstream text holding a fenced block. -/
theorem post_success_witness :
    ∃ call, upstreamCalls (fetch sampleConv (sampleRequest "POST" (some (promptBody "hello")))
        sampleEnv (sampleRuntime (upstreamJson (.str " Hi ```js\ncode``` there ")))).effects
        = [call] ∧
      promptOf call.body = some (.str "hello") ∧
      (fetch sampleConv (sampleRequest "POST" (some (promptBody "hello"))) sampleEnv
        (sampleRuntime (upstreamJson (.str " Hi ```js\ncode``` there ")))).response.IsDraft
          "Hi  there" := by
  obtain ⟨call, h1, h2, h3⟩ :=
    post_success sampleConv (sampleRequest "POST" (some (promptBody "hello"))) sampleEnv
      (sampleRuntime (upstreamJson (.str " Hi ```js\ncode``` there "))) (promptBody "hello")
      "hello" "secret" rfl rfl rfl (by decide) (by decide) (by decide) rfl (by decide)
  refine ⟨call, h1, h2, ?_⟩
  have := h3 (upstreamJson (.str " Hi ```js\ncode``` there ")) " Hi ```js\ncode``` there " rfl rfl
  rwa [sanitize_sample] at this

theorem extractText_eq_foldl (data : JsonVal) :
    extractText data = textPath.foldl optStep (some data) := rfl

theorem foldl_optStep_none (steps : List Step) : steps.foldl optStep none = none := by
  induction steps with
  | nil => rfl
  | cons s rest ih => cases s <;> simpa [List.foldl, optStep, optField, optIndex0] using ih

theorem optStep_some (v : JsonVal) (s : Step) (hv : v ≠ .null) :
    optStep (some v) s = v.step s := by
  cases s <;> cases v <;> first | exact absurd rfl hv | rfl

theorem resolve_cons (s : Step) (rest : List Step) (v : JsonVal) (hv : v ≠ .null) :
    resolve (s :: rest) v = match v.step s with
      | none => none
      | some w => resolve rest w := by
  cases v <;> first | exact absurd rfl hv | rfl

/-- The optional reads of the handler follow the path: they end in `undefined` or
`null` when the path is omitted, and in the value found otherwise. -/
theorem foldl_optStep_resolve (steps : List Step) :
    ∀ v : JsonVal,
      (resolve steps v = none → ∀ d, orNullish (steps.foldl optStep (some v)) d = d) ∧
      (∀ w, resolve steps v = some w → steps.foldl optStep (some v) = some w ∧ w ≠ .null) := by
  induction steps with
  | nil =>
    intro v
    cases v <;> simp [resolve, orNullish]
  | cons s rest ih =>
    intro v
    by_cases hv : v = .null
    · subst hv
      have e : optStep (some JsonVal.null) s = none := by cases s <;> rfl
      simp [resolve, List.foldl, e, foldl_optStep_none, orNullish]
    · rw [resolve_cons s rest v hv, List.foldl, optStep_some v s hv]
      cases hs : v.step s with
      | none => simp [foldl_optStep_none, orNullish]
      | some w => exact ih w

theorem sanitize_fallbackText : sanitize fallbackText = fallbackText := by
  have h1 : stripFences fallbackText.data = fallbackText.data := by
    apply stripFences_of_NoFence
    intro p q hp _ _
    have hmem : '`' ∈ fallbackText.data := List.getElem?_mem hp.1
    revert hmem
    decide
  have h2 : trimChars fallbackText.data = fallbackText.data := by decide
  simp [sanitize, sanitizeChars, h1, h2]

theorem responseTo_omitted (request : Request) (data : JsonVal)
    (h : resolve textPath data = none) :
    (responseTo request (.json data)).IsDraft fallbackText := by
  have h' := (foldl_optStep_resolve textPath data).1 h (.str fallbackText)
  rw [← extractText_eq_foldl] at h'
  simp [responseTo, h', jsonResponse, Response.IsDraft, sanitize_fallbackText]

theorem responseTo_found_string (request : Request) (data : JsonVal) (u : String)
    (h : resolve textPath data = some (.str u)) :
    (responseTo request (.json data)).IsDraft (sanitize u) := by
  have h' := ((foldl_optStep_resolve textPath data).2 _ h).1
  rw [← extractText_eq_foldl] at h'
  exact responseTo_string request data u h'

theorem responseTo_found_other (request : Request) (data w : JsonVal)
    (h : resolve textPath data = some w) (hw : ∀ u, w ≠ .str u) :
    responseTo request (.json data) = badRequest := by
  obtain ⟨h', hn⟩ := (foldl_optStep_resolve textPath data).2 _ h
  rw [← extractText_eq_foldl] at h'
  cases w <;> first
    | exact absurd rfl hn
    | exact absurd rfl (hw _)
    | simp [responseTo, h', orNullish]

theorem badRequest_not_missing : ¬ badRequest.IsError 400 "Missing prompt" := by
  simp [badRequest, Response.IsError, errorBody]

theorem responseTo_not_missing (request : Request) (result : UpstreamResult) :
    ¬ (responseTo request result).IsError 400 "Missing prompt" := by
  unfold responseTo
  cases result with
  | networkError => exact badRequest_not_missing
  | notJson => exact badRequest_not_missing
  | json data =>
    simp only
    split
    · simp [jsonResponse, Response.IsError]
    · exact badRequest_not_missing

theorem fetch_post_null (conv : NumberConv) (request : Request) (env : Env) (rt : Runtime)
    (hm : request.method = "POST") (hb : request.body = some .null) :
    fetch conv request env rt = ⟨badRequest, []⟩ := by
  simp [fetch, hm, hb]

/-- A POST with a non-empty string prompt reads the two counters first. -/
theorem fetch_post_valid_reads (conv : NumberConv) (request : Request) (env : Env)
    (rt : Runtime) (v : JsonVal) (p : String) (hm : request.method = "POST")
    (hb : request.body = some v) (hp : HasPrompt v p) (hne : p ≠ "") :
    counterReads request rt <+: (fetch conv request env rt).effects ∧
    ¬ (fetch conv request env rt).response.IsError 400 "Missing prompt" := by
  cases hl : rateLimited conv request env rt with
  | true =>
    rw [fetch_post_limited conv request env rt v p hm hb hp hne hl]
    exact ⟨List.prefix_refl _, by simp [jsonResponse, Response.IsError]⟩
  | false =>
    cases hk : strTruthy env.GEMINI_API_KEY with
    | false =>
      rw [fetch_post_unconfigured conv request env rt v p hm hb hp hne hl hk]
      exact ⟨List.prefix_append _ _, by simp [jsonResponse, Response.IsError]⟩
    | true =>
      rw [fetch_post_called conv request env rt v p hm hb hp hne hl hk]
      refine ⟨?_, responseTo_not_missing _ _⟩
      simp only [List.append_assoc]
      exact List.prefix_append _ _

/-- Claim C4, amended. For a POST whose body parses as JSON: the answer is status
400 with `{"error":"Missing prompt"}` exactly when the parsed value is not `null`
and carries no non-empty string in its field `prompt`; a body `null` is answered
with status 400 and `{"error":"Bad request"}`; and a body with a non-empty string
prompt passes validation, the handler going on to read the two counters. -/
theorem missing_prompt_iff (conv : NumberConv) (request : Request) (env : Env) (rt : Runtime)
    (v : JsonVal) (hm : request.method = "POST") (hb : request.body = some v) :
    ((fetch conv request env rt).response.IsError 400 "Missing prompt" ↔
      (v ≠ .null ∧ ¬ ∃ p, HasPrompt v p ∧ p ≠ "")) ∧
    (v = .null → (fetch conv request env rt).response.IsError 400 "Bad request") ∧
    (∀ p, HasPrompt v p → p ≠ "" →
      counterReads request rt <+: (fetch conv request env rt).effects) := by
  refine ⟨⟨?_, ?_⟩, ?_, ?_⟩
  · intro h
    by_cases hv : v = .null
    · subst hv
      rw [fetch_post_null conv request env rt hm hb] at h
      exact absurd h badRequest_not_missing
    · refine ⟨hv, ?_⟩
      rintro ⟨p, hp, hne⟩
      exact (fetch_post_valid_reads conv request env rt v p hm hb hp hne).2 h
  · rintro ⟨hv, hg⟩
    rw [fetch_post_invalid conv request env rt v hm hb hv hg]
    exact ⟨rfl, rfl⟩
  · intro hv
    subst hv
    rw [fetch_post_null conv request env rt hm hb]
    exact ⟨rfl, rfl⟩
  · intro p hp hne
    exact (fetch_post_valid_reads conv request env rt v p hm hb hp hne).1

/-- Claim C4, amended, at the body `{}`. -/
theorem missing_prompt_iff_witness :
    (fetch sampleConv (sampleRequest "POST" (some (.obj []))) sampleEnv
      (sampleRuntime .null)).response.IsError 400 "Missing prompt" :=
  (missing_prompt_iff sampleConv (sampleRequest "POST" (some (.obj []))) sampleEnv
    (sampleRuntime .null) (.obj []) rfl rfl).1.2
      ⟨by simp, by simp [HasPrompt, JsonVal.field, List.lookup]⟩

/-- Claim C4 as stated fails: the body `null` parses as JSON and has no string
prompt, yet the answer is not "Missing prompt"; the body `{"prompt": ""}` has a
string prompt, yet the answer is "Missing prompt". -/
theorem missing_prompt_counterexample :
    ((¬ ∃ p, HasPrompt .null p) ∧
      ¬ (fetch sampleConv (sampleRequest "POST" (some .null)) sampleEnv
          (sampleRuntime .null)).response.IsError 400 "Missing prompt") ∧
    (HasPrompt (promptBody "") "" ∧
      (fetch sampleConv (sampleRequest "POST" (some (promptBody ""))) sampleEnv
          (sampleRuntime .null)).response.IsError 400 "Missing prompt") := by
  refine ⟨⟨by simp [HasPrompt, JsonVal.field], ?_⟩, rfl, ⟨rfl, rfl⟩⟩
  simp [fetch, sampleRequest, badRequest, Response.IsError, errorBody]

/-- Claim C6. For a POST that passes validation, the rate check and the API-key
check, when the upstream JSON omits the path `candidates[0].content.parts[0].text`
(a step is missing or `null`), the answer is status 200 with the draft equal to
the fallback text. -/
theorem fallback_when_path_omitted (conv : NumberConv) (request : Request) (env : Env)
    (rt : Runtime) (v : JsonVal) (p k : String) (data : JsonVal)
    (hm : request.method = "POST") (hb : request.body = some v) (hp : HasPrompt v p)
    (hne : p ≠ "") (hl : rateLimited conv request env rt = false)
    (hk : env.GEMINI_API_KEY = some k) (hk' : k ≠ "")
    (hu : rt.upstream (callFor env p) = .json data) (ho : resolve textPath data = none) :
    (fetch conv request env rt).response.IsDraft fallbackText := by
  have hkey : strTruthy env.GEMINI_API_KEY = true := by rw [hk]; exact strTruthy_some k hk'
  rw [fetch_post_called conv request env rt v p hm hb hp hne hl hkey]
  simp only [hu]
  exact responseTo_omitted request data ho

/-- Claim C6, at an upstream answer with an empty list of candidates. -/
theorem fallback_when_path_omitted_witness :
    (fetch sampleConv (sampleRequest "POST" (some (promptBody "hello"))) sampleEnv
      (sampleRuntime (.obj [("candidates", .arr [])]))).response.IsDraft
        "Sorry, could not generate a draft right now." :=
  fallback_when_path_omitted sampleConv (sampleRequest "POST" (some (promptBody "hello")))
    sampleEnv (sampleRuntime (.obj [("candidates", .arr [])])) (promptBody "hello") "hello"
    "secret" (.obj [("candidates", .arr [])]) rfl rfl rfl (by decide) (by decide) rfl
    (by decide) rfl rfl

/-- Claim C7, amended. For a POST that reaches the upstream call: when the
upstream body parses as JSON and the text path is omitted, the answer is status
200 with the fallback text as draft; when a string stands at the path, status
200 with that string sanitised; when a value other than a string stands there,
or the upstream body does not parse as JSON, status 400 with
`{"error":"Bad request"}`. -/
theorem upstream_outcomes (conv : NumberConv) (request : Request) (env : Env)
    (rt : Runtime) (v : JsonVal) (p k : String)
    (hm : request.method = "POST") (hb : request.body = some v) (hp : HasPrompt v p)
    (hne : p ≠ "") (hl : rateLimited conv request env rt = false)
    (hk : env.GEMINI_API_KEY = some k) (hk' : k ≠ "") :
    (∀ data, rt.upstream (callFor env p) = .json data → resolve textPath data = none →
      (fetch conv request env rt).response.IsDraft fallbackText) ∧
    (∀ data u, rt.upstream (callFor env p) = .json data →
      resolve textPath data = some (.str u) →
      (fetch conv request env rt).response.IsDraft (sanitize u)) ∧
    (∀ data w, rt.upstream (callFor env p) = .json data → resolve textPath data = some w →
      (∀ u, w ≠ .str u) → (fetch conv request env rt).response.IsError 400 "Bad request") ∧
    (rt.upstream (callFor env p) = .notJson →
      (fetch conv request env rt).response.IsError 400 "Bad request") := by
  have hkey : strTruthy env.GEMINI_API_KEY = true := by rw [hk]; exact strTruthy_some k hk'
  rw [fetch_post_called conv request env rt v p hm hb hp hne hl hkey]
  refine ⟨?_, ?_, ?_, ?_⟩
  · intro data hu ho
    simp only [hu]; exact responseTo_omitted request data ho
  · intro data u hu ho
    simp only [hu]; exact responseTo_found_string request data u ho
  · intro data w hu ho hw
    simp only [hu]
    rw [responseTo_found_other request data w ho hw]
    exact ⟨rfl, rfl⟩
  · intro hu
    simp only [hu]
    exact ⟨rfl, rfl⟩

/-- Claim C7, amended, at an upstream answer whose text is `null`. -/
theorem upstream_outcomes_witness :
    (fetch sampleConv (sampleRequest "POST" (some (promptBody "hello"))) sampleEnv
      (sampleRuntime (upstreamJson .null))).response.IsDraft fallbackText :=
  (upstream_outcomes sampleConv (sampleRequest "POST" (some (promptBody "hello")))
    sampleEnv (sampleRuntime (upstreamJson .null)) (promptBody "hello") "hello"
    "secret" rfl rfl rfl (by decide) (by decide) rfl (by decide)).1 (upstreamJson .null) rfl rfl

/-- Claim C7 as stated fails: with the number 5 at the text path of the upstream
answer, the call is made, returns, and the answer is status 400. -/
theorem upstream_text_not_string :
    upstreamCalls (fetch sampleConv (sampleRequest "POST" (some (promptBody "hello"))) sampleEnv
      (sampleRuntime (upstreamJson (.num 5)))).effects
        = [callFor sampleEnv "hello"] ∧
    (sampleRuntime (upstreamJson (.num 5))).upstream (callFor sampleEnv "hello")
        = .json (upstreamJson (.num 5)) ∧
    extractText (upstreamJson (.num 5)) = some (.num 5) ∧
    (fetch sampleConv (sampleRequest "POST" (some (promptBody "hello"))) sampleEnv
      (sampleRuntime (upstreamJson (.num 5)))).response.IsError 400 "Bad request" := by
  have h := fetch_post_called sampleConv (sampleRequest "POST" (some (promptBody "hello")))
    sampleEnv (sampleRuntime (upstreamJson (.num 5))) (promptBody "hello") "hello"
    rfl rfl rfl (by decide) (by decide) (by decide)
  rw [h]
  exact ⟨rfl, rfl, rfl, rfl, rfl⟩

/-! ## Bucket keys -/

theorem digitChar_inj (a b : Nat) (h : digitChar a = digitChar b) : a % 10 = b % 10 := by
  have key : ∀ i j : Fin 10, Char.ofNat (48 + i.val) = Char.ofNat (48 + j.val) → i = j := by
    decide
  have := key ⟨a % 10, Nat.mod_lt _ (by decide)⟩ ⟨b % 10, Nat.mod_lt _ (by decide)⟩ h
  exact Fin.mk.inj_iff.mp this

theorem pad2_inj (a b : Nat) (ha : a < 100) (hb : b < 100) (h : pad2 a = pad2 b) : a = b := by
  simp only [pad2, List.cons.injEq, and_true] at h
  have h1 := digitChar_inj _ _ h.1
  have h2 := digitChar_inj _ _ h.2
  omega

theorem pad4_inj (a b : Nat) (ha : a < 10000) (hb : b < 10000) (h : pad4 a = pad4 b) :
    a = b := by
  simp only [pad4, List.cons.injEq, and_true] at h
  have h1 := digitChar_inj _ _ h.1
  have h2 := digitChar_inj _ _ h.2.1
  have h3 := digitChar_inj _ _ h.2.2.1
  have h4 := digitChar_inj _ _ h.2.2.2
  omega

theorem minuteKey_eq_iff (ip : String) (t1 t2 : UtcTime) :
    minuteKey ip t1 = minuteKey ip t2 ↔
      (toISOString t1).data.take 16 = (toISOString t2).data.take 16 := by
  simp [minuteKey, slice0, String.ext_iff]

theorem dayKey_eq_iff (ip : String) (t1 t2 : UtcTime) :
    dayKey ip t1 = dayKey ip t2 ↔
      (toISOString t1).data.take 10 = (toISOString t2).data.take 10 := by
  simp [dayKey, slice0, String.ext_iff]

theorem isoYear_short (y : Int) (h : 0 ≤ y ∧ y ≤ 9999) : isoYear y = pad4 y.toNat := by
  simp [isoYear, h]

theorem isoYear_long (y : Int) (h : ¬ (0 ≤ y ∧ y ≤ 9999)) :
    isoYear y = (if y < 0 then '-' else '+') :: pad6 y.natAbs := by
  simp only [isoYear, h, if_false]

theorem take16_short (t : UtcTime) (h : 0 ≤ t.year ∧ t.year ≤ 9999) :
    (toISOString t).data.take 16 =
      pad4 t.year.toNat ++ '-' :: pad2 (t.month.val + 1) ++ '-' :: pad2 (t.day.val + 1) ++
        'T' :: pad2 t.hour.val ++ ':' :: pad2 t.minute.val := by
  simp [toISOString, isoYear_short _ h, pad4, pad2]

theorem take16_long (t : UtcTime) (h : ¬ (0 ≤ t.year ∧ t.year ≤ 9999)) :
    (toISOString t).data.take 16 =
      (if t.year < 0 then '-' else '+') :: pad6 t.year.natAbs ++
        '-' :: pad2 (t.month.val + 1) ++ '-' :: pad2 (t.day.val + 1) ++
        'T' :: pad2 t.hour.val := by
  simp [toISOString, isoYear_long _ h, pad6, pad2]

theorem take10_short (t : UtcTime) (h : 0 ≤ t.year ∧ t.year ≤ 9999) :
    (toISOString t).data.take 10 =
      pad4 t.year.toNat ++ '-' :: pad2 (t.month.val + 1) ++ '-' :: pad2 (t.day.val + 1) := by
  simp [toISOString, isoYear_short _ h, pad4, pad2]

theorem take10_long (t : UtcTime) (h : ¬ (0 ≤ t.year ∧ t.year ≤ 9999)) :
    (toISOString t).data.take 10 =
      (if t.year < 0 then '-' else '+') :: pad6 t.year.natAbs ++
        '-' :: pad2 (t.month.val + 1) := by
  simp [toISOString, isoYear_long _ h, pad6, pad2]

theorem minuteKey_of_SameMinute (ip : String) (t1 t2 : UtcTime) (h : SameMinute t1 t2) :
    minuteKey ip t1 = minuteKey ip t2 := by
  obtain ⟨⟨hy, hmo, hd⟩, hh, hmi⟩ := h
  rw [minuteKey_eq_iff]
  by_cases hr : 0 ≤ t1.year ∧ t1.year ≤ 9999
  · rw [take16_short t1 hr, take16_short t2 (hy ▸ hr), hy, hmo, hd, hh, hmi]
  · rw [take16_long t1 hr, take16_long t2 (hy ▸ hr), hy, hmo, hd, hh]

theorem dayKey_of_SameDay (ip : String) (t1 t2 : UtcTime) (h : SameDay t1 t2) :
    dayKey ip t1 = dayKey ip t2 := by
  obtain ⟨hy, hmo, hd⟩ := h
  rw [dayKey_eq_iff]
  by_cases hr : 0 ≤ t1.year ∧ t1.year ≤ 9999
  · rw [take10_short t1 hr, take10_short t2 (hy ▸ hr), hy, hmo, hd]
  · rw [take10_long t1 hr, take10_long t2 (hy ▸ hr), hy, hmo]

theorem SameDay_of_dayKey (ip : String) (t1 t2 : UtcTime)
    (h1 : 0 ≤ t1.year ∧ t1.year ≤ 9999) (h2 : 0 ≤ t2.year ∧ t2.year ≤ 9999)
    (h : dayKey ip t1 = dayKey ip t2) : SameDay t1 t2 := by
  rw [dayKey_eq_iff, take10_short t1 h1, take10_short t2 h2] at h
  simp only [pad4, pad2, List.cons_append, List.nil_append, List.cons.injEq, and_true,
    true_and] at h
  obtain ⟨y1, y2, y3, y4, m1, m2, d1, d2⟩ := h
  have hy := pad4_inj t1.year.toNat t2.year.toNat (by omega) (by omega)
    (by simp [pad4, y1, y2, y3, y4])
  have hm := pad2_inj (t1.month.val + 1) (t2.month.val + 1) (by omega) (by omega)
    (by simp [pad2, m1, m2])
  have hd := pad2_inj (t1.day.val + 1) (t2.day.val + 1) (by omega) (by omega)
    (by simp [pad2, d1, d2])
  refine ⟨by omega, Fin.ext (by omega), Fin.ext (by omega)⟩

theorem SameMinute_of_minuteKey (ip : String) (t1 t2 : UtcTime)
    (h1 : 0 ≤ t1.year ∧ t1.year ≤ 9999) (h2 : 0 ≤ t2.year ∧ t2.year ≤ 9999)
    (h : minuteKey ip t1 = minuteKey ip t2) : SameMinute t1 t2 := by
  rw [minuteKey_eq_iff, take16_short t1 h1, take16_short t2 h2] at h
  simp only [pad4, pad2, List.cons_append, List.nil_append, List.cons.injEq, and_true,
    true_and] at h
  obtain ⟨y1, y2, y3, y4, m1, m2, d1, d2, hh1, hh2, n1, n2⟩ := h
  have hy := pad4_inj t1.year.toNat t2.year.toNat (by omega) (by omega)
    (by simp [pad4, y1, y2, y3, y4])
  have hm := pad2_inj (t1.month.val + 1) (t2.month.val + 1) (by omega) (by omega)
    (by simp [pad2, m1, m2])
  have hd := pad2_inj (t1.day.val + 1) (t2.day.val + 1) (by omega) (by omega)
    (by simp [pad2, d1, d2])
  have hh := pad2_inj t1.hour.val t2.hour.val (by omega) (by omega) (by simp [pad2, hh1, hh2])
  have hn := pad2_inj t1.minute.val t2.minute.val (by omega) (by omega)
    (by simp [pad2, n1, n2])
  exact ⟨⟨by omega, Fin.ext (by omega), Fin.ext (by omega)⟩, Fin.ext hh, Fin.ext hn⟩

theorem digitChar_ne_sign (n : Nat) (y : Int) :
    digitChar n ≠ (if y < 0 then '-' else '+') := by
  have key : ∀ i : Fin 10, Char.ofNat (48 + i.val) ≠ '-' ∧ Char.ofNat (48 + i.val) ≠ '+' := by
    decide
  have := key ⟨n % 10, Nat.mod_lt _ (by decide)⟩
  unfold digitChar
  split
  · exact this.1
  · exact this.2

theorem minuteKey_ne_of_mixed (ip : String) (t1 t2 : UtcTime)
    (h1 : 0 ≤ t1.year ∧ t1.year ≤ 9999) (h2 : ¬ (0 ≤ t2.year ∧ t2.year ≤ 9999)) :
    minuteKey ip t1 ≠ minuteKey ip t2 := by
  rw [Ne, minuteKey_eq_iff, take16_short t1 h1, take16_long t2 h2]
  simp only [pad4, List.cons_append, List.cons.injEq]
  intro h
  exact digitChar_ne_sign _ _ h.1

theorem dayKey_ne_of_mixed (ip : String) (t1 t2 : UtcTime)
    (h1 : 0 ≤ t1.year ∧ t1.year ≤ 9999) (h2 : ¬ (0 ≤ t2.year ∧ t2.year ≤ 9999)) :
    dayKey ip t1 ≠ dayKey ip t2 := by
  rw [Ne, dayKey_eq_iff, take10_short t1 h1, take10_long t2 h2]
  simp only [pad4, List.cons_append, List.cons.injEq]
  intro h
  exact digitChar_ne_sign _ _ h.1


/-- Claim C5, amended. For one identity, two instants of the same UTC minute have
equal minute keys and two instants of the same UTC day have equal day keys; and
when at least one of the two instants lies in the years 0 to 9999, instants of
different minutes have different minute keys and instants of different days
different day keys. -/
theorem bucket_keys (ip : String) (t1 t2 : UtcTime) :
    (SameMinute t1 t2 → minuteKey ip t1 = minuteKey ip t2) ∧
    (SameDay t1 t2 → dayKey ip t1 = dayKey ip t2) ∧
    ((0 ≤ t1.year ∧ t1.year ≤ 9999) ∨ (0 ≤ t2.year ∧ t2.year ≤ 9999) →
      (¬ SameMinute t1 t2 → minuteKey ip t1 ≠ minuteKey ip t2) ∧
      (¬ SameDay t1 t2 → dayKey ip t1 ≠ dayKey ip t2)) := by
  refine ⟨minuteKey_of_SameMinute ip t1 t2, dayKey_of_SameDay ip t1 t2, ?_⟩
  intro h
  by_cases h1 : 0 ≤ t1.year ∧ t1.year ≤ 9999
  · by_cases h2 : 0 ≤ t2.year ∧ t2.year ≤ 9999
    · exact ⟨fun hn he => hn (SameMinute_of_minuteKey ip t1 t2 h1 h2 he),
        fun hn he => hn (SameDay_of_dayKey ip t1 t2 h1 h2 he)⟩
    · exact ⟨fun _ => minuteKey_ne_of_mixed ip t1 t2 h1 h2,
        fun _ => dayKey_ne_of_mixed ip t1 t2 h1 h2⟩
  · have h2 : 0 ≤ t2.year ∧ t2.year ≤ 9999 := h.resolve_left h1
    exact ⟨fun _ => (minuteKey_ne_of_mixed ip t2 t1 h2 h1).symm,
      fun _ => (dayKey_ne_of_mixed ip t2 t1 h2 h1).symm⟩

/-- Claim C5, amended, at 13:45 and 13:46 of 17 May 2024. -/
theorem bucket_keys_witness :
    minuteKey "203.0.113.9" sampleTime ≠ minuteKey "203.0.113.9" ⟨2024, 4, 16, 13, 46, 7, 123⟩ ∧
    dayKey "203.0.113.9" sampleTime = dayKey "203.0.113.9" ⟨2024, 4, 16, 13, 46, 7, 123⟩ :=
  ⟨((bucket_keys "203.0.113.9" sampleTime ⟨2024, 4, 16, 13, 46, 7, 123⟩).2.2
      (Or.inl (by decide))).1 (by unfold SameMinute SameDay; decide),
   (bucket_keys "203.0.113.9" sampleTime ⟨2024, 4, 16, 13, 46, 7, 123⟩).2.1
      (by unfold SameDay; decide)⟩

/-- Claim C5 as stated fails from the year 10000 on, where `toISOString` writes a
sign and six digits for the year: the first 16 characters stop at the hour and
the first 10 at the month. -/
theorem bucket_keys_year_10000 :
    ¬ SameMinute ⟨10000, 0, 0, 0, 0, 0, 0⟩ ⟨10000, 0, 0, 0, 1, 0, 0⟩ ∧
    minuteKey "203.0.113.9" ⟨10000, 0, 0, 0, 0, 0, 0⟩
      = minuteKey "203.0.113.9" ⟨10000, 0, 0, 0, 1, 0, 0⟩ ∧
    ¬ SameDay ⟨10000, 0, 0, 0, 0, 0, 0⟩ ⟨10000, 0, 1, 0, 0, 0, 0⟩ ∧
    dayKey "203.0.113.9" ⟨10000, 0, 0, 0, 0, 0, 0⟩
      = dayKey "203.0.113.9" ⟨10000, 0, 1, 0, 0, 0, 0⟩ := by
  unfold SameMinute SameDay
  decide

/-! ## Requests handled one after another -/

theorem fetch_effects_of_not_Passes (conv : NumberConv) (request : Request) (env : Env)
    (rt : Runtime) (h : ¬ Passes conv request env rt) :
    (fetch conv request env rt).effects = [] ∨
    (fetch conv request env rt).effects = counterReads request rt := by
  by_cases h1 : request.method = "OPTIONS"
  · left; rw [fetch_options conv request env rt h1]
  by_cases hm : request.method = "POST"
  swap
  · left; rw [fetch_other_method conv request env rt h1 hm]
  cases hb : request.body with
  | none => left; rw [fetch_post_unparsed conv request env rt hm hb]
  | some v =>
    by_cases hv : v = .null
    · subst hv; left; rw [fetch_post_null conv request env rt hm hb]
    by_cases hg : ∃ p, HasPrompt v p ∧ p ≠ ""
    · obtain ⟨p, hp, hne⟩ := hg
      cases hl : rateLimited conv request env rt with
      | true =>
        right; rw [fetch_post_limited conv request env rt v p hm hb hp hne hl]; rfl
      | false => exact absurd ⟨hm, v, p, hb, hp, hne, hl⟩ h
    · left; rw [fetch_post_invalid conv request env rt v hm hb hv hg]

theorem fetch_effects_of_Passes (conv : NumberConv) (request : Request) (env : Env)
    (rt : Runtime) (h : Passes conv request env rt) :
    ∃ tail, (tail = [] ∨ ∃ c, tail = [.upstreamCall c]) ∧
      (fetch conv request env rt).effects =
        counterReads request rt ++ counterWrites conv request env rt ++ tail := by
  obtain ⟨hm, v, p, hb, hp, hne, hl⟩ := h
  cases hk : strTruthy env.GEMINI_API_KEY with
  | false =>
    rw [fetch_post_unconfigured conv request env rt v p hm hb hp hne hl hk]
    exact ⟨[], Or.inl rfl, by simp⟩
  | true =>
    rw [fetch_post_called conv request env rt v p hm hb hp hne hl hk]
    exact ⟨_, Or.inr ⟨_, rfl⟩, rfl⟩

theorem minuteKey_ne_dayKey (a b : String) (s t : UtcTime) : minuteKey a s ≠ dayKey b t := by
  intro h
  have := congrArg (fun x => x.data.head?) h
  simp [minuteKey, dayKey] at this

theorem pastRateCheck_of_not_Passes (conv : NumberConv) (request : Request) (env : Env)
    (rt : Runtime) (h : ¬ Passes conv request env rt) :
    (fetch conv request env rt).pastRateCheck = false ∧
    applyEffects env.RATE_LIMIT (fetch conv request env rt).effects = env.RATE_LIMIT := by
  unfold Outcome.pastRateCheck
  rcases fetch_effects_of_not_Passes conv request env rt h with e | e <;> rw [e] <;>
    exact ⟨rfl, rfl⟩

theorem pastRateCheck_of_Passes (conv : NumberConv) (request : Request) (env : Env)
    (rt : Runtime) (h : Passes conv request env rt) :
    (fetch conv request env rt).pastRateCheck = true ∧
    applyEffects env.RATE_LIMIT (fetch conv request env rt).effects
        (minuteKey (identityOf request) rt.nowMinute) =
      some (conv.toStr (countOf conv
        (env.RATE_LIMIT (minuteKey (identityOf request) rt.nowMinute))).add1) ∧
    applyEffects env.RATE_LIMIT (fetch conv request env rt).effects
        (dayKey (identityOf request) rt.nowDay) =
      some (conv.toStr (countOf conv
        (env.RATE_LIMIT (dayKey (identityOf request) rt.nowDay))).add1) := by
  obtain ⟨tail, ht, e⟩ := fetch_effects_of_Passes conv request env rt h
  unfold Outcome.pastRateCheck
  rw [e]
  have hne := minuteKey_ne_dayKey (identityOf request) (identityOf request) rt.nowMinute rt.nowDay
  rcases ht with ht | ⟨c, ht⟩ <;> subst ht <;>
    simp [counterReads, counterWrites, applyEffects, applyEffect, hne]

theorem countOf_written (conv : NumberConv) (n : Nat) (h : RoundTrips conv n) :
    countOf conv (some (conv.toStr (.fin (n : ℚ)))) = .fin (n : ℚ) := by
  simp [countOf, h.1, h.2]

theorem rateLimited_of_Counted (conv : NumberConv) (request : Request) (env : Env)
    (rt : Runtime) (ip : String) (t0 : UtcTime) (k : Nat) (q : ℚ)
    (hid : identityOf request = ip) (hmn : SameMinute rt.nowMinute t0)
    (hdy : SameMinute rt.nowDay t0)
    (hL : limitOf conv env.MINUTE_LIMIT 3 = .fin q)
    (hc : Counted conv env.RATE_LIMIT (minuteKey ip t0) (dayKey ip t0) k) :
    rateLimited conv request env rt =
      (decide (q ≤ k) || (JsNum.fin k).ge (limitOf conv env.DAILY_LIMIT 20)) := by
  unfold rateLimited
  rw [hid, minuteKey_of_SameMinute ip _ _ hmn, dayKey_of_SameDay ip _ _ hdy.1, hc.1, hc.2, hL]
  simp [JsNum.ge]

theorem step_Counted (conv : NumberConv) (request : Request) (env : Env)
    (rt : Runtime) (ip : String) (t0 : UtcTime) (k : Nat) (q : ℚ)
    (hid : identityOf request = ip) (hmn : SameMinute rt.nowMinute t0)
    (hdy : SameMinute rt.nowDay t0)
    (hL : limitOf conv env.MINUTE_LIMIT 3 = .fin q)
    (hc : Counted conv env.RATE_LIMIT (minuteKey ip t0) (dayKey ip t0) k)
    (hconv : RoundTrips conv (k + 1)) :
    ((fetch conv request env rt).pastRateCheck = false ∧
      Counted conv (applyEffects env.RATE_LIMIT (fetch conv request env rt).effects)
        (minuteKey ip t0) (dayKey ip t0) k) ∨
    ((fetch conv request env rt).pastRateCheck = true ∧ k < ⌈q⌉₊ ∧
      Counted conv (applyEffects env.RATE_LIMIT (fetch conv request env rt).effects)
        (minuteKey ip t0) (dayKey ip t0) (k + 1)) := by
  by_cases hp : Passes conv request env rt
  · right
    obtain ⟨h1, h2, h3⟩ := pastRateCheck_of_Passes conv request env rt hp
    have hl := hp.2.choose_spec.choose_spec.2.2.2
    rw [rateLimited_of_Counted conv request env rt ip t0 k q hid hmn hdy hL hc] at hl
    simp only [Bool.or_eq_false_iff, decide_eq_false_iff_not, not_le] at hl
    rw [hid, minuteKey_of_SameMinute ip _ _ hmn, hc.1] at h2
    rw [hid, dayKey_of_SameDay ip _ _ hdy.1, hc.2] at h3
    have hw := countOf_written conv (k + 1) hconv
    simp only [Nat.cast_add, Nat.cast_one] at hw
    refine ⟨h1, Nat.lt_ceil.mpr hl.1, ?_, ?_⟩
    · rw [h2]; simpa [JsNum.add1] using hw
    · rw [h3]; simpa [JsNum.add1] using hw
  · left
    obtain ⟨h1, h2⟩ := pastRateCheck_of_not_Passes conv request env rt hp
    exact ⟨h1, by rw [h2]; exact hc⟩

theorem limited_of_Counted (conv : NumberConv) (request : Request) (env : Env)
    (rt : Runtime) (ip : String) (t0 : UtcTime) (k : Nat) (q : ℚ)
    (hid : identityOf request = ip) (hmn : SameMinute rt.nowMinute t0)
    (hdy : SameMinute rt.nowDay t0)
    (hL : limitOf conv env.MINUTE_LIMIT 3 = .fin q)
    (hc : Counted conv env.RATE_LIMIT (minuteKey ip t0) (dayKey ip t0) k)
    (hv : ValidPost request) (hk : ⌈q⌉₊ ≤ k) :
    (fetch conv request env rt).response.IsError 429 "Rate limit exceeded" := by
  obtain ⟨hm, v, p, hb, hp, hne⟩ := hv
  have hl := rateLimited_of_Counted conv request env rt ip t0 k q hid hmn hdy hL hc
  rw [decide_eq_true (Nat.ceil_le.mp hk), Bool.true_or] at hl
  rw [fetch_post_limited conv request env rt v p hm hb hp hne hl]
  exact ⟨rfl, rfl⟩

theorem serve_cons (conv : NumberConv) (env : Env) (request : Request) (rt : Runtime)
    (rest : List (Request × Runtime)) :
    serve conv env ((request, rt) :: rest) =
      (env.RATE_LIMIT, fetch conv request env rt) ::
        serve conv (envAfter conv env request rt) rest := rfl

/-- The invariant of a sequential run: with both counters at `k` and `L` the
minute limit rounded up, at most `L - k` further requests get past the rate
check, every such request leaves both counters one higher, and once `L` have
passed every valid POST is answered 429. -/
theorem serve_Counted (conv : NumberConv) (ip : String) (t0 : UtcTime) (q : ℚ) (L : Nat)
    (hq : L = ⌈q⌉₊) :
    ∀ (reqs : List (Request × Runtime)) (env : Env) (k : Nat),
      FromWithin ip t0 reqs →
      limitOf conv env.MINUTE_LIMIT 3 = .fin q →
      Counted conv env.RATE_LIMIT (minuteKey ip t0) (dayKey ip t0) k →
      (∀ n, k < n → n ≤ k + reqs.length → RoundTrips conv n) →
      passCount (serve conv env reqs) ≤ L - k ∧
      (∀ run ∈ serve conv env reqs, run.2.pastRateCheck = true →
        countOf conv (applyEffects run.1 run.2.effects (minuteKey ip t0)) =
          (countOf conv (run.1 (minuteKey ip t0))).add1 ∧
        countOf conv (applyEffects run.1 run.2.effects (dayKey ip t0)) =
          (countOf conv (run.1 (dayKey ip t0))).add1) ∧
      (∀ pre x post, reqs = pre ++ x :: post → L ≤ k + passCount (serve conv env pre) →
        ValidPost x.1 →
        ∃ run, (serve conv env reqs)[pre.length]? = some run ∧
          run.2.response.IsError 429 "Rate limit exceeded") := by
  intro reqs
  induction reqs with
  | nil =>
    intro env k _ _ _ _
    refine ⟨by simp [serve, passCount], by simp [serve], ?_⟩
    intro pre x post h
    simp at h
  | cons y rest ih =>
    obtain ⟨request, rt⟩ := y
    intro env k hfrom hL hc hconv
    obtain ⟨hid, hmn, hdy⟩ := hfrom (request, rt) (List.mem_cons_self _ _)
    have hfrom' : FromWithin ip t0 rest := fun x hx => hfrom x (List.mem_cons_of_mem _ hx)
    have hstep := step_Counted conv request env rt ip t0 k q hid hmn hdy hL hc
      (hconv (k + 1) (by omega) (by simp))
    have hpc : passCount ((env.RATE_LIMIT, fetch conv request env rt) ::
        serve conv (envAfter conv env request rt) rest) =
        passCount (serve conv (envAfter conv env request rt) rest) +
          (if (fetch conv request env rt).pastRateCheck = true then 1 else 0) := by
      simp [passCount, List.countP_cons]
    have hpc' : ∀ pre', passCount ((env.RATE_LIMIT, fetch conv request env rt) ::
        serve conv (envAfter conv env request rt) pre') =
        passCount (serve conv (envAfter conv env request rt) pre') +
          (if (fetch conv request env rt).pastRateCheck = true then 1 else 0) := by
      intro pre'; simp [passCount, List.countP_cons]
    rw [serve_cons]
    rw [← hq] at hstep
    rcases hstep with ⟨hpast, hc'⟩ | ⟨hpast, hkL, hc'⟩
    · obtain ⟨ih1, ih2, ih3⟩ := ih (envAfter conv env request rt) k hfrom' hL hc'
        (fun n h1 h2 => hconv n h1 (by simp; omega))
      refine ⟨?_, ?_, ?_⟩
      · rw [hpc, hpast]; simpa using ih1
      · intro run hrun hp
        rcases List.mem_cons.mp hrun with e | e
        · subst e; simp [hpast] at hp
        · exact ih2 run e hp
      · intro pre x post hsplit hcount hv
        cases pre with
        | nil =>
          simp only [List.nil_append, List.cons.injEq] at hsplit
          obtain ⟨hx, _⟩ := hsplit
          subst hx
          refine ⟨(env.RATE_LIMIT, fetch conv request env rt), by simp, ?_⟩
          have hk : L ≤ k := by simpa [serve, passCount] using hcount
          exact limited_of_Counted conv request env rt ip t0 k q hid hmn hdy hL hc hv (hq ▸ hk)
        | cons z pre' =>
          simp only [List.cons_append, List.cons.injEq] at hsplit
          obtain ⟨hz, hrest⟩ := hsplit
          subst hz
          rw [serve_cons, hpc' pre', hpast] at hcount
          obtain ⟨run, hr1, hr2⟩ := ih3 pre' x post hrest (by simpa using hcount) hv
          exact ⟨run, by simpa using hr1, hr2⟩
    · obtain ⟨ih1, ih2, ih3⟩ := ih (envAfter conv env request rt) (k + 1) hfrom' hL hc'
        (fun n h1 h2 => hconv n (by omega) (by simp; omega))
      refine ⟨?_, ?_, ?_⟩
      · rw [hpc, hpast]; simp only [if_true]; omega
      · intro run hrun hp
        rcases List.mem_cons.mp hrun with e | e
        · subst e
          have h1 := hc'.1
          have h2 := hc'.2
          simp only [Nat.cast_add, Nat.cast_one] at h1 h2
          simp only
          rw [h1, h2, hc.1, hc.2]
          exact ⟨rfl, rfl⟩
        · exact ih2 run e hp
      · intro pre x post hsplit hcount hv
        cases pre with
        | nil =>
          have hk : L ≤ k := by simpa [serve, passCount] using hcount
          omega
        | cons z pre' =>
          simp only [List.cons_append, List.cons.injEq] at hsplit
          obtain ⟨hz, hrest⟩ := hsplit
          subst hz
          rw [serve_cons, hpc' pre', hpast] at hcount
          simp only [if_true] at hcount
          obtain ⟨run, hr1, hr2⟩ := ih3 pre' x post hrest (by omega) hv
          exact ⟨run, by simpa using hr1, hr2⟩

/-- While both counters stay under their limits, every valid POST of the
sequence gets past the rate check. -/
theorem serve_all_pass (conv : NumberConv) (ip : String) (t0 : UtcTime) (q d : ℚ) :
    ∀ (reqs : List (Request × Runtime)) (env : Env) (k : Nat),
      FromWithin ip t0 reqs → (∀ x ∈ reqs, ValidPost x.1) →
      limitOf conv env.MINUTE_LIMIT 3 = .fin q → limitOf conv env.DAILY_LIMIT 20 = .fin d →
      Counted conv env.RATE_LIMIT (minuteKey ip t0) (dayKey ip t0) k →
      (∀ n, k < n → n ≤ k + reqs.length → RoundTrips conv n) →
      (∀ n : Nat, k ≤ n → n < k + reqs.length → (n : ℚ) < q ∧ (n : ℚ) < d) →
      passCount (serve conv env reqs) = reqs.length := by
  intro reqs
  induction reqs with
  | nil => intro env k _ _ _ _ _ _ _; rfl
  | cons y rest ih =>
    obtain ⟨request, rt⟩ := y
    intro env k hfrom hvalid hL hD hc hconv hlt
    obtain ⟨hid, hmn, hdy⟩ := hfrom (request, rt) (List.mem_cons_self _ _)
    obtain ⟨hm, v, p, hb, hp, hne⟩ := hvalid (request, rt) (List.mem_cons_self _ _)
    obtain ⟨hq, hd⟩ := hlt k (le_refl _) (by simp)
    have hl : rateLimited conv request env rt = false := by
      rw [rateLimited_of_Counted conv request env rt ip t0 k q hid hmn hdy hL hc, hD]
      simp [JsNum.ge, hq, hd]
    have hpass : Passes conv request env rt := ⟨hm, v, p, hb, hp, hne, hl⟩
    have hpast := (pastRateCheck_of_Passes conv request env rt hpass).1
    have hstep := step_Counted conv request env rt ip t0 k q hid hmn hdy hL hc
      (hconv (k + 1) (by omega) (by simp))
    rcases hstep with ⟨hno, _⟩ | ⟨_, _, hc'⟩
    · rw [hpast] at hno; cases hno
    · have := ih (envAfter conv env request rt) (k + 1)
        (fun x hx => hfrom x (List.mem_cons_of_mem _ hx))
        (fun x hx => hvalid x (List.mem_cons_of_mem _ hx)) hL hD hc'
        (fun n h1 h2 => hconv n (by omega) (by simp; omega))
        (fun n h1 h2 => hlt n (by omega) (by simp; omega))
      rw [serve_cons]
      simp only [passCount, List.countP_cons, hpast, if_true, List.length_cons] at this ⊢
      omega

/-- Claim C10, amended. Starting with both counters of a caller absent, for
requests of that caller handled one after another within one UTC minute under a
finite minute limit `q`: at most `⌈q⌉` of them get past the rate check (at most
`q` when `q` is a natural number), every request that gets past it leaves both
counters one greater than it read them, and once `⌈q⌉` have passed every valid
POST is answered 429. The API key plays no part. -/
theorem sequential_rate_limit (conv : NumberConv) (env : Env) (ip : String) (t0 : UtcTime)
    (q : ℚ) (reqs : List (Request × Runtime))
    (hfrom : FromWithin ip t0 reqs)
    (hL : limitOf conv env.MINUTE_LIMIT 3 = .fin q)
    (hm : env.RATE_LIMIT (minuteKey ip t0) = none)
    (hd : env.RATE_LIMIT (dayKey ip t0) = none)
    (hconv : ∀ n, 0 < n → n ≤ reqs.length → RoundTrips conv n) :
    passCount (serve conv env reqs) ≤ ⌈q⌉₊ ∧
    (∀ L : Nat, q = L → passCount (serve conv env reqs) ≤ L) ∧
    (∀ run ∈ serve conv env reqs, run.2.pastRateCheck = true →
      countOf conv (applyEffects run.1 run.2.effects (minuteKey ip t0)) =
        (countOf conv (run.1 (minuteKey ip t0))).add1 ∧
      countOf conv (applyEffects run.1 run.2.effects (dayKey ip t0)) =
        (countOf conv (run.1 (dayKey ip t0))).add1) ∧
    (∀ pre x post, reqs = pre ++ x :: post → ⌈q⌉₊ ≤ passCount (serve conv env pre) →
      ValidPost x.1 →
      ∃ run, (serve conv env reqs)[pre.length]? = some run ∧
        run.2.response.IsError 429 "Rate limit exceeded") := by
  have hc : Counted conv env.RATE_LIMIT (minuteKey ip t0) (dayKey ip t0) 0 := by
    simp [Counted, hm, hd, countOf]
  obtain ⟨h1, h2, h3⟩ := serve_Counted conv ip t0 q ⌈q⌉₊ rfl reqs env 0 hfrom hL hc
    (fun n a b => hconv n a (by omega))
  refine ⟨by omega, ?_, h2, fun pre x post hs hp hv => h3 pre x post hs (by omega) hv⟩
  intro L hqL
  subst hqL
  simpa using h1

/-- Claim C10, amended, at a burst of four requests under the minute limit 2. -/
theorem sequential_rate_limit_witness :
    passCount (serve sampleConv { sampleEnv with MINUTE_LIMIT := some "2" } sampleBurst) ≤ 2 :=
  (sequential_rate_limit sampleConv { sampleEnv with MINUTE_LIMIT := some "2" } "anon"
    sampleTime 2 sampleBurst
    (by
      intro x hx
      simp only [sampleBurst, List.mem_cons, List.mem_singleton, List.not_mem_nil, or_false] at hx
      rcases hx with h | h | h | h <;> subst h <;>
        exact ⟨rfl, ⟨⟨rfl, rfl, rfl⟩, rfl, rfl⟩, ⟨⟨rfl, rfl, rfl⟩, rfl, rfl⟩⟩)
    rfl
    rfl rfl
    (by
      intro n h0 h4
      simp only [sampleBurst, List.length_cons, List.length_nil] at h4
      interval_cases n <;> exact ⟨by decide, rfl⟩)).2.1 2 (by norm_num)


/-- Claim C10 as stated fails for a limit that is not a whole number: under the
minute limit 2.5 three requests in a row get past the rate check. -/
theorem fractional_limit :
    limitOf sampleConv (some "2.5") 3 = .fin (5 / 2) ∧
    passCount (serve sampleConv { sampleEnv with MINUTE_LIMIT := some "2.5" } sampleTriple) = 3 ∧
    ¬ ((3 : ℚ) ≤ 5 / 2) := by
  have hL : limitOf sampleConv (some "2.5") 3 = .fin (5 / 2) := by
    simp [limitOf, sampleConv, decimalValue, digitsValue]
    norm_num
  refine ⟨hL, ?_, by norm_num⟩
  refine serve_all_pass sampleConv "anon" sampleTime (5 / 2) 20 sampleTriple
    { sampleEnv with MINUTE_LIMIT := some "2.5" } 0 ?_ ?_ hL rfl ⟨rfl, rfl⟩ ?_ ?_
  · intro x hx
    simp only [sampleTriple, List.mem_cons, List.mem_singleton, List.not_mem_nil, or_false] at hx
    rcases hx with h | h | h <;> subst h <;>
      exact ⟨rfl, ⟨⟨rfl, rfl, rfl⟩, rfl, rfl⟩, ⟨⟨rfl, rfl, rfl⟩, rfl, rfl⟩⟩
  · intro x hx
    simp only [sampleTriple, List.mem_cons, List.mem_singleton, List.not_mem_nil, or_false] at hx
    rcases hx with h | h | h <;> subst h
    · exact ⟨rfl, _, "one", rfl, rfl, by decide⟩
    · exact ⟨rfl, _, "two", rfl, rfl, by decide⟩
    · exact ⟨rfl, _, "three", rfl, rfl, by decide⟩
  · intro n h0 h3
    simp only [sampleTriple, List.length_cons, List.length_nil] at h3
    interval_cases n <;> exact ⟨by decide, rfl⟩
  · intro n h0 h3
    simp only [sampleTriple, List.length_cons, List.length_nil] at h3
    interval_cases n <;> norm_num

/-! ## Sanitising is idempotent -/

/-- Claim C1. Sanitising (every match of the fence pattern removed, then the
surrounding white space trimmed) is idempotent, and so is the fence-stripping
step alone. -/
theorem sanitize_idempotent (t : String) :
    sanitize (sanitize t) = sanitize t ∧
    stripFencesStr (stripFencesStr t) = stripFencesStr t :=
  ⟨sanitize_idem t, by simp [stripFencesStr, stripFences_idem]⟩

end DraftWorker
